import Mathlib

/-! Data layers of `include/caffe/data_layers.hpp`.

A verification development for the data-layer header of the repository.
The first part embeds the class declarations of the header (base classes,
virtual member functions, the `WindowField` enum).  The second part embeds the
record source, the window sampler and the prefetching pipeline.
-/

namespace Caffe

/-! ## Part 1: the class declarations of the header -/

/-- The classes named in `data_layers.hpp`: the two external bases `Layer` and
`InternalThread`, followed by every class template of the header in declaration order. -/
inductive LayerClass
  | Layer
  | InternalThread
  | BaseDataLayer
  | BasePrefetchingDataLayer
  | DataLayer
  | DummyDataLayer
  | HDF5DataLayer
  | HDF5OutputLayer
  | ImageDataLayer
  | MemoryDataLayer
  | WindowDataLayer
  | ImageSegCtrlPrefetchingDataLayer
  | ImageSegCtrlClsPrefetchingDataLayer
  | ImageDimPrefetchingDataLayer
  | ImageSegDataLayer
  | WindowSegDataLayer
  | WindowSegBinaryLayer
  | SegBinaryCtrlLayer
  | SelectSegBinaryLayer
  | WindowClsDataLayer
  | WindowInstSegDataLayer
  deriving DecidableEq, Repr

/-- The values of `LayerParameter_LayerType` that the header returns from `type()`. -/
inductive LayerType
  | DATA
  | DUMMY_DATA
  | HDF5_DATA
  | HDF5_OUTPUT
  | IMAGE_DATA
  | MEMORY_DATA
  | WINDOW_DATA
  deriving DecidableEq, Repr

open LayerClass in
/-- Every class of the header, in declaration order. -/
def allClasses : List LayerClass :=
  [Layer, InternalThread, BaseDataLayer, BasePrefetchingDataLayer, DataLayer, DummyDataLayer,
   HDF5DataLayer, HDF5OutputLayer, ImageDataLayer, MemoryDataLayer, WindowDataLayer,
   ImageSegCtrlPrefetchingDataLayer, ImageSegCtrlClsPrefetchingDataLayer,
   ImageDimPrefetchingDataLayer, ImageSegDataLayer, WindowSegDataLayer, WindowSegBinaryLayer,
   SegBinaryCtrlLayer, SelectSegBinaryLayer, WindowClsDataLayer, WindowInstSegDataLayer]

/-- The direct base classes of a class, read off the head of its declaration
(`class X : public B1, public B2`). -/
def bases : LayerClass → List LayerClass
  | .Layer => []
  | .InternalThread => []
  | .BaseDataLayer => [.Layer]
  | .BasePrefetchingDataLayer => [.BaseDataLayer, .InternalThread]
  | .DataLayer => [.BasePrefetchingDataLayer]
  | .DummyDataLayer => [.Layer]
  | .HDF5DataLayer => [.Layer]
  | .HDF5OutputLayer => [.Layer]
  | .ImageDataLayer => [.BasePrefetchingDataLayer]
  | .MemoryDataLayer => [.BaseDataLayer]
  | .WindowDataLayer => [.BasePrefetchingDataLayer]
  | .ImageSegCtrlPrefetchingDataLayer => [.BasePrefetchingDataLayer]
  | .ImageSegCtrlClsPrefetchingDataLayer => [.BasePrefetchingDataLayer]
  | .ImageDimPrefetchingDataLayer => [.BasePrefetchingDataLayer]
  | .ImageSegDataLayer => [.ImageDimPrefetchingDataLayer]
  | .WindowSegDataLayer => [.ImageDimPrefetchingDataLayer]
  | .WindowSegBinaryLayer => [.ImageDimPrefetchingDataLayer]
  | .SegBinaryCtrlLayer => [.ImageSegCtrlPrefetchingDataLayer]
  | .SelectSegBinaryLayer => [.ImageDimPrefetchingDataLayer]
  | .WindowClsDataLayer => [.ImageDimPrefetchingDataLayer]
  | .WindowInstSegDataLayer => [.ImageDimPrefetchingDataLayer]

/-- The relation "derives, directly or transitively, from": the transitive closure of `bases`. -/
inductive Derives : LayerClass → LayerClass → Prop
  | direct {c b : LayerClass} : b ∈ bases c → Derives c b
  | step {c d b : LayerClass} : d ∈ bases c → Derives d b → Derives c b

/-- Search of the inheritance graph for `b` above `c`, following at most `fuel` edges. -/
def derivesFromAux : Nat → LayerClass → LayerClass → Bool
  | 0, _, _ => false
  | fuel + 1, c, b => (bases c).any (fun d => d == b || derivesFromAux fuel d b)

/-- Decision procedure for `Derives`; the fuel is the number of classes of the header. -/
def derivesFrom (c b : LayerClass) : Bool :=
  derivesFromAux allClasses.length c b

/-- The body of `type()` where the class defines it. -/
def declType : LayerClass → Option LayerType
  | .DataLayer => some .DATA
  | .DummyDataLayer => some .DUMMY_DATA
  | .HDF5DataLayer => some .HDF5_DATA
  | .HDF5OutputLayer => some .HDF5_OUTPUT
  | .ImageDataLayer => some .IMAGE_DATA
  | .MemoryDataLayer => some .MEMORY_DATA
  | .WindowDataLayer => some .WINDOW_DATA
  | .ImageSegDataLayer => some .IMAGE_DATA
  | .WindowSegDataLayer => some .IMAGE_DATA
  | .WindowSegBinaryLayer => some .IMAGE_DATA
  | .SegBinaryCtrlLayer => some .IMAGE_DATA
  | .SelectSegBinaryLayer => some .IMAGE_DATA
  | .WindowClsDataLayer => some .IMAGE_DATA
  | .WindowInstSegDataLayer => some .IMAGE_DATA
  | _ => none

/-- The body of `ExactNumBottomBlobs()` where the class defines it. -/
def declExactNumBottomBlobs : LayerClass → Option Int
  | .DataLayer => some 0
  | .DummyDataLayer => some 0
  | .HDF5DataLayer => some 0
  | .HDF5OutputLayer => some 2
  | .ImageDataLayer => some 0
  | .MemoryDataLayer => some 0
  | .WindowDataLayer => some 0
  | .ImageSegDataLayer => some 0
  | .WindowSegDataLayer => some 0
  | .WindowSegBinaryLayer => some 0
  | .SegBinaryCtrlLayer => some 0
  | .SelectSegBinaryLayer => some 0
  | .WindowClsDataLayer => some 0
  | .WindowInstSegDataLayer => some 0
  | _ => none

/-- The body of `ExactNumTopBlobs()` where the class defines it. -/
def declExactNumTopBlobs : LayerClass → Option Int
  | .HDF5OutputLayer => some 0
  | .ImageDataLayer => some 2
  | .MemoryDataLayer => some 2
  | .WindowDataLayer => some 2
  | .ImageSegDataLayer => some 3
  | .WindowSegDataLayer => some 3
  | .WindowSegBinaryLayer => some 3
  | .SegBinaryCtrlLayer => some 3
  | .SelectSegBinaryLayer => some 3
  | .WindowClsDataLayer => some 3
  | .WindowInstSegDataLayer => some 3
  | _ => none

/-- The body of `MinTopBlobs()` where the class defines it. -/
def declMinTopBlobs : LayerClass → Option Int
  | .DataLayer => some 1
  | .DummyDataLayer => some 1
  | .HDF5DataLayer => some 1
  | _ => none

/-- The body of `MaxTopBlobs()` where the class defines it. -/
def declMaxTopBlobs : LayerClass → Option Int
  | .DataLayer => some 2
  | _ => none

/-- The body of `AutoTopBlobs()` where the class defines it. -/
def declAutoTopBlobs : LayerClass → Option Bool
  | .ImageSegDataLayer => some true
  | .WindowSegDataLayer => some true
  | .WindowSegBinaryLayer => some true
  | .SegBinaryCtrlLayer => some true
  | .SelectSegBinaryLayer => some true
  | .WindowClsDataLayer => some true
  | .WindowInstSegDataLayer => some true
  | _ => none

/-- The classes whose declaration carries the comment
"Data layers have no bottoms, so reshaping is trivial." (header lines 39, 121, 156, 196). -/
def carriesNoBottomsComment : LayerClass → Bool
  | .BaseDataLayer => true
  | .DummyDataLayer => true
  | .HDF5DataLayer => true
  | .HDF5OutputLayer => true
  | _ => false

/-- Resolution of a virtual member function: the definition of the class itself, otherwise
the one inherited from the first base class that has one. `none` means that no class of this
header defines the member, so the default of `Layer` (declared in `layer.hpp`) applies. -/
def lookupVirtual {β : Type} (decl : LayerClass → Option β) : Nat → LayerClass → Option β
  | 0, c => decl c
  | fuel + 1, c =>
    match decl c with
    | some v => some v
    | none => (bases c).findSome? (fun b => lookupVirtual decl fuel b)

/-- The value of `type()` for an object of class `c`, when this header defines it. -/
def type (c : LayerClass) : Option LayerType :=
  lookupVirtual declType allClasses.length c

/-- The value of `ExactNumBottomBlobs()` for an object of class `c`, when this header defines it. -/
def ExactNumBottomBlobs (c : LayerClass) : Option Int :=
  lookupVirtual declExactNumBottomBlobs allClasses.length c

/-- The value of `ExactNumTopBlobs()` for an object of class `c`, when this header defines it. -/
def ExactNumTopBlobs (c : LayerClass) : Option Int :=
  lookupVirtual declExactNumTopBlobs allClasses.length c

/-- The value of `MinTopBlobs()` for an object of class `c`, when this header defines it. -/
def MinTopBlobs (c : LayerClass) : Option Int :=
  lookupVirtual declMinTopBlobs allClasses.length c

/-- The value of `MaxTopBlobs()` for an object of class `c`, when this header defines it. -/
def MaxTopBlobs (c : LayerClass) : Option Int :=
  lookupVirtual declMaxTopBlobs allClasses.length c

/-- The value of `AutoTopBlobs()` for an object of class `c`. The default of `Layer` lives in
`layer.hpp`, outside the header, and is taken as the parameter `layerDefault`. -/
def AutoTopBlobs (layerDefault : Bool) (c : LayerClass) : Bool :=
  (lookupVirtual declAutoTopBlobs allClasses.length c).getD layerDefault

/-- The concrete layer variants: the classes that define `type()`. -/
def isConcrete (c : LayerClass) : Bool :=
  (declType c).isSome

/-- The concrete layer variants, in declaration order. -/
def concreteLayers : List LayerClass :=
  allClasses.filter isConcrete

open LayerClass in
/-- The seven segmentation and window-segmentation layers. -/
def segmentationLayers : List LayerClass :=
  [ImageSegDataLayer, WindowSegDataLayer, WindowSegBinaryLayer, SegBinaryCtrlLayer,
   SelectSegBinaryLayer, WindowClsDataLayer, WindowInstSegDataLayer]

/-- Modelled from the spec: the cardinality check of the outputs (`Layer::CheckBlobCounts`
of `layer.hpp`, not part of the header). A list of `n` output tensors is admitted when it
meets every count the class declares: `n` equals `ExactNumTopBlobs()`, is at least
`MinTopBlobs()` and at most `MaxTopBlobs()`. -/
def admitsTopCount (c : LayerClass) (n : Nat) : Bool :=
  (match ExactNumTopBlobs c with
   | some e => decide ((n : Int) = e)
   | none => true) &&
  (match MinTopBlobs c with
   | some m => decide (m ≤ (n : Int))
   | none => true) &&
  (match MaxTopBlobs c with
   | some m => decide ((n : Int) ≤ m)
   | none => true)

/-- Modelled from the spec: automatic completion of the outputs ("AutoTopBlobs" semantics,
implemented by the net construction code outside the header). When `AutoTopBlobs()` is true
and fewer outputs are configured than the class declares, the missing ones are created. -/
def autoCompleteTops (layerDefault : Bool) (c : LayerClass) (n : Nat) : Nat :=
  if AutoTopBlobs layerDefault c then
    max n (max ((ExactNumTopBlobs c).getD 0) ((MinTopBlobs c).getD 0)).toNat
  else n

/-- The member functions that make up the prefetching facade and its hooks. -/
inductive Member
  | LayerSetUp
  | DataLayerSetUp
  | Forward_cpu
  | Forward_gpu
  | CreatePrefetchThread
  | JoinPrefetchThread
  | InternalThreadEntry
  deriving DecidableEq, Repr

open Member in
/-- The facade members each class of the header declares itself. The external bases `Layer`
and `InternalThread` are declared in other headers and are listed without members. -/
def declaredMembers : LayerClass → List Member
  | .Layer => []
  | .InternalThread => []
  | .BaseDataLayer => [LayerSetUp, DataLayerSetUp]
  | .BasePrefetchingDataLayer =>
      [LayerSetUp, Forward_cpu, Forward_gpu, CreatePrefetchThread, JoinPrefetchThread,
       InternalThreadEntry]
  | .DataLayer => [DataLayerSetUp, InternalThreadEntry]
  | .DummyDataLayer => [LayerSetUp, Forward_cpu]
  | .HDF5DataLayer => [LayerSetUp, Forward_cpu, Forward_gpu]
  | .HDF5OutputLayer => [LayerSetUp, Forward_cpu, Forward_gpu]
  | .ImageDataLayer => [DataLayerSetUp, InternalThreadEntry]
  | .MemoryDataLayer => [DataLayerSetUp, Forward_cpu]
  | .WindowDataLayer => [DataLayerSetUp, InternalThreadEntry]
  | .ImageSegCtrlPrefetchingDataLayer => [LayerSetUp, Forward_cpu, Forward_gpu, InternalThreadEntry]
  | .ImageSegCtrlClsPrefetchingDataLayer =>
      [LayerSetUp, Forward_cpu, Forward_gpu, InternalThreadEntry]
  | .ImageDimPrefetchingDataLayer => [LayerSetUp, Forward_cpu, Forward_gpu, InternalThreadEntry]
  | .ImageSegDataLayer => [DataLayerSetUp, InternalThreadEntry]
  | .WindowSegDataLayer => [DataLayerSetUp, InternalThreadEntry]
  | .WindowSegBinaryLayer => [DataLayerSetUp, InternalThreadEntry]
  | .SegBinaryCtrlLayer => [DataLayerSetUp, InternalThreadEntry]
  | .SelectSegBinaryLayer => [DataLayerSetUp, InternalThreadEntry]
  | .WindowClsDataLayer => [DataLayerSetUp, InternalThreadEntry]
  | .WindowInstSegDataLayer => [DataLayerSetUp, InternalThreadEntry]

/-- The class of this header whose declaration of member `m` an object of class `c` uses. -/
def provider (m : Member) (c : LayerClass) : Option LayerClass :=
  lookupVirtual (fun k => if m ∈ declaredMembers k then some k else none) allClasses.length c

open LayerClass in
/-- The concrete variants built on the prefetching base class. -/
def prefetchingLayers : List LayerClass :=
  [DataLayer, ImageDataLayer, WindowDataLayer, ImageSegDataLayer, WindowSegDataLayer,
   WindowSegBinaryLayer, SegBinaryCtrlLayer, SelectSegBinaryLayer, WindowClsDataLayer,
   WindowInstSegDataLayer]

open LayerClass in
/-- The concrete variants that are not built on the prefetching base class. -/
def directLayers : List LayerClass :=
  [DummyDataLayer, HDF5DataLayer, HDF5OutputLayer, MemoryDataLayer]

/-- The enumerators of `enum WindowField`, in declaration order. -/
inductive WindowField
  | IMAGE_INDEX
  | LABEL
  | OVERLAP
  | X1
  | Y1
  | X2
  | Y2
  | NUM
  deriving DecidableEq, Repr

open WindowField in
/-- The enumerator list of `enum WindowField { IMAGE_INDEX, LABEL, OVERLAP, X1, Y1, X2, Y2, NUM }`. -/
def WindowField.enumerators : List WindowField :=
  [IMAGE_INDEX, LABEL, OVERLAP, X1, Y1, X2, Y2, NUM]

/-- The integer value of an enumerator: none has an initialiser, so the first is 0 and each
following one is its predecessor plus one, which is its position in the enumerator list. -/
def WindowField.value (f : WindowField) : Nat :=
  WindowField.enumerators.indexOf f

/-- The named fields of a window record: every enumerator except the count `NUM`. -/
def WindowField.fields : List WindowField :=
  WindowField.enumerators.filter (fun f => f != WindowField.NUM)

/-! ## Part 2: record source, window sampler and prefetching pipeline

The header declares the state of these components (`lines_`, `lines_id_`, `fg_windows_`,
`bg_windows_`, `prefetch_data_`, `CreatePrefetchThread`, `JoinPrefetchThread`,
`InternalThreadEntry`); the bodies of the member functions are defined in other files of the
repository. The definitions below follow the specification of those functions. -/

/-- The fatal failures of the pipeline. -/
inductive Failure
  | emptySource
  | emptyWindowSets
  | emptyDraw
  deriving DecidableEq, Repr

/-- Modelled from the spec: a record produced by a record source (body of
`InternalThreadEntry` is not in the header): the original index of the record in the backing
list and its payload. -/
structure Record (α : Type) where
  index : Nat
  payload : α
  deriving DecidableEq, Repr

/-- Modelled from the spec: the per-layer shuffle RNG (`prefetch_rng_` and `ShuffleImages`
are only declared in the header): `permute` draws the fresh index order of an epoch from the
RNG state, `advance` is the RNG state afterwards. -/
structure ShuffleRng where
  permute : Nat → List Nat → List Nat
  advance : Nat → Nat

/-- Modelled from the spec: the state of a record source (`lines_` and `lines_id_` of
`ImageDataLayer`): backing list, index order, cursor position, shuffle flag, shuffle RNG
state and epoch counter. The total count is the length of the backing list. -/
structure RecordSource (α : Type) where
  records : List α
  order : List Nat
  cursor : Nat
  shuffle : Bool
  rngState : Nat
  epoch : Nat
  deriving DecidableEq, Repr

/-- The total count of a record source. -/
def RecordSource.total_count {α : Type} (s : RecordSource α) : Nat :=
  s.records.length

/-- Modelled from the spec: `open(config)` (body of `DataLayerSetUp` is not in the header).
An empty source is a fatal configuration error; otherwise the cursor starts at the first
record of the original order. -/
def RecordSource.open {α : Type} (records : List α) (shuffle : Bool) (seed : Nat) :
    Except Failure (RecordSource α) :=
  if records.isEmpty then .error .emptySource
  else .ok
    { records := records, order := List.range records.length, cursor := 0,
      shuffle := shuffle, rngState := seed, epoch := 0 }

/-- Modelled from the spec: `reset_epoch()` (body of `ShuffleImages` is not in the header):
reshuffles the index order if shuffle is enabled, with a fresh permutation from the RNG. -/
def RecordSource.reset_epoch {α : Type} (g : ShuffleRng) (s : RecordSource α) : RecordSource α :=
  if s.shuffle then
    { s with order := g.permute s.rngState s.order, rngState := g.advance s.rngState }
  else s

/-- Modelled from the spec: `next()` (the per-row part of `InternalThreadEntry`, not in the
header): returns the record under the cursor and advances the cursor; reaching the end of the
index order wraps the cursor to the start, counts an epoch and resets the epoch. -/
def RecordSource.next {α : Type} (g : ShuffleRng) (s : RecordSource α) :
    Option (Record α × RecordSource α) :=
  match s.order[s.cursor]? with
  | none => none
  | some i =>
    match s.records[i]? with
    | none => none
    | some p =>
      let s1 := { s with cursor := s.cursor + 1 }
      let s2 :=
        if s1.total_count ≤ s1.cursor then
          RecordSource.reset_epoch g { s1 with cursor := 0, epoch := s1.epoch + 1 }
        else s1
      some ({ index := i, payload := p }, s2)

/-- Repeated `next()`: the records of `n` consecutive calls and the source afterwards. -/
def RecordSource.nexts {α : Type} (g : ShuffleRng) :
    Nat → RecordSource α → Option (List (Record α) × RecordSource α)
  | 0, s => some ([], s)
  | n + 1, s =>
    match s.next g with
    | none => none
    | some (r, s1) =>
      match RecordSource.nexts g n s1 with
      | none => none
      | some (rs, s2) => some (r :: rs, s2)

/-- Modelled from the spec: a window record (the rows of `fg_windows_` and `bg_windows_`):
source image reference, bounding box, overlap fraction, label and optional instance and
class ids. -/
structure WindowRecord where
  image : Nat
  x1 : Int
  y1 : Int
  x2 : Int
  y2 : Int
  overlap : ℚ
  label : Int
  inst_id : Option Int
  cls_id : Option Int
  deriving DecidableEq, Repr

/-- Modelled from the spec: the state of the window sampler (`fg_windows_`, `bg_windows_` and
the draw ratio): the foreground and background sets, the configured foreground fraction, and
for each set the windows not yet drawn in the current pass. -/
structure WindowSampler where
  fg : List WindowRecord
  bg : List WindowRecord
  fg_fraction : ℚ
  fgPass : List WindowRecord
  bgPass : List WindowRecord
  deriving DecidableEq, Repr

/-- Modelled from the spec: `open` of the window sampler (body of
`WindowDataLayer::DataLayerSetUp` is not in the header): partitions the window records by the
overlap thresholds; fails fatally if both sets are empty. -/
def WindowSampler.open (windows : List WindowRecord) (fg_threshold bg_threshold fg_fraction : ℚ) :
    Except Failure WindowSampler :=
  let fg := windows.filter (fun w => decide (fg_threshold ≤ w.overlap))
  let bg := windows.filter (fun w => decide (w.overlap < bg_threshold))
  if fg.isEmpty && bg.isEmpty then .error .emptyWindowSets
  else .ok { fg := fg, bg := bg, fg_fraction := fg_fraction, fgPass := fg, bgPass := bg }

/-- Modelled from the spec: uniform sampling from a window set with the random index `r`
(`PrefetchRand` is only declared in the header), without replacement within a pass: the window
is taken out of the windows left in the pass, and a new pass over the whole set starts when
none is left. -/
def WindowSampler.drawFrom (set pass : List WindowRecord) (r : Nat) :
    Option (WindowRecord × List WindowRecord) :=
  let pool := if pass.isEmpty then set else pass
  match pool[r % pool.length]? with
  | some w => some (w, pool.eraseIdx (r % pool.length))
  | none => none

/-- Modelled from the spec: `next()` of the window sampler (the per-row part of
`WindowDataLayer::InternalThreadEntry`, not in the header), for the uniform random value `u`
and the random index `r`: foreground if `u` is below the foreground fraction and the
foreground set is non-empty, background otherwise. -/
def WindowSampler.next (s : WindowSampler) (u : ℚ) (r : Nat) :
    Except Failure (WindowRecord × WindowSampler) :=
  if u < s.fg_fraction ∧ ¬ s.fg.isEmpty then
    match WindowSampler.drawFrom s.fg s.fgPass r with
    | some (w, p) => .ok (w, { s with fgPass := p })
    | none => .error .emptyDraw
  else
    match WindowSampler.drawFrom s.bg s.bgPass r with
    | some (w, p) => .ok (w, { s with bgPass := p })
    | none => .error .emptyDraw

/-- Consecutive draws of the window sampler, one per pair of random values. -/
def WindowSampler.draws (s : WindowSampler) :
    List (ℚ × Nat) → Except Failure (List WindowRecord × WindowSampler)
  | [] => .ok ([], s)
  | (u, r) :: rest =>
    match s.next u r with
    | .error e => .error e
    | .ok (w, s1) =>
      match WindowSampler.draws s1 rest with
      | .error e => .error e
      | .ok (ws, s2) => .ok (w :: ws, s2)

/-- The two batch buffers owned by the facade. -/
inductive Slot
  | A
  | B
  deriving DecidableEq, Repr

/-- The other buffer. -/
def Slot.other : Slot → Slot
  | .A => .B
  | .B => .A

/-- Modelled from the spec: the three states of a batch buffer. -/
inductive BufferState
  | empty
  | filling
  | ready
  deriving DecidableEq, Repr

/-- Modelled from the spec: a batch buffer (`prefetch_data_` and `prefetch_label_` of
`BasePrefetchingDataLayer`): the rows written so far, whose number is the fill cursor within
the batch, and the state of the buffer. -/
structure BatchBuffer (α : Type) where
  rows : List (Record α)
  state : BufferState
  deriving DecidableEq, Repr

/-- Modelled from the spec: the states of a prefetch worker. -/
inductive WorkerState
  | Idle
  | Running
  | Done
  deriving DecidableEq, Repr

/-- Modelled from the spec: the lifecycle object of a prefetch worker (the thread of
`InternalThread`): the buffer it has a lease on, its state, and the stored fatal failure of
its fill. -/
structure PrefetchWorker where
  target : Slot
  state : WorkerState
  failed : Bool
  deriving DecidableEq, Repr

/-- Position of the consumer in the facade: waiting in `join()` for the worker it created,
returned from `join()`, done with the hand-off of the batch, or stopped by a fatal failure. -/
inductive Phase
  | awaitingJoin
  | joined
  | handedOff
  | aborted
  deriving DecidableEq, Repr

/-- Modelled from the spec: the state of the data layer facade (`BasePrefetchingDataLayer`;
the bodies of `LayerSetUp`, `Forward_cpu`, `CreatePrefetchThread` and `JoinPrefetchThread` are
not in the header). It owns the record source, the two batch buffers (one per slot) and the worker
objects that have been created and not yet joined (newest first). `active` designates the
buffer of the current step, `handed` the buffer the consumer holds, `outputs` the batches
handed over so far (oldest first), `observed` what the consumer has read from the buffer it
holds, and `misuse` records a violated precondition of `create()`. -/
structure DataLayerFacade (α : Type) where
  batch_size : Nat
  source : RecordSource α
  buffers : Slot → BatchBuffer α
  active : Slot
  workers : List PrefetchWorker
  phase : Phase
  handed : Option Slot
  outputs : List (List (Record α))
  observed : List (List (Record α))
  misuse : Bool

/-- Replaces the buffer in a slot. -/
def DataLayerFacade.setBuffer {α : Type} (s : DataLayerFacade α) (slot : Slot)
    (b : BatchBuffer α) : DataLayerFacade α :=
  { s with buffers := Function.update s.buffers slot b }

/-- Modelled from the spec: `create()` of a worker (`CreatePrefetchThread`): a new worker
object takes the lease on buffer `t`, which becomes filling with no row written, and goes from
`Idle` to `Running`; `t` becomes the active buffer and the consumer will wait for it. -/
def DataLayerFacade.spawn {α : Type} (s : DataLayerFacade α) (t : Slot) : DataLayerFacade α :=
  let w : PrefetchWorker := { target := t, state := .Idle, failed := false }
  { s.setBuffer t { rows := [], state := .filling } with
    workers := { w with state := .Running } :: s.workers
    active := t
    phase := .awaitingJoin }

/-- Modelled from the spec: `setup(config)` (`LayerSetUp`): opens the record source, allocates
both buffers and immediately creates the first worker, filling buffer A. -/
def DataLayerFacade.setup {α : Type} (records : List α) (batch_size : Nat) (shuffle : Bool)
    (seed : Nat) : Except Failure (DataLayerFacade α) :=
  match RecordSource.open records shuffle seed with
  | .error e => .error e
  | .ok src =>
    let s : DataLayerFacade α :=
      { batch_size := batch_size, source := src,
        buffers := fun _ => { rows := [], state := .empty },
        active := .A, workers := [], phase := .handedOff, handed := none,
        outputs := [], observed := [], misuse := false }
    .ok (s.spawn .A)

/-- The atomic actions of the background worker and of the consumer. The worker with index
`i` in the list of worker objects writes one row (`workerRow i`), fails fatally in the
transform of a row (`workerFail i`) or returns from its fill (`workerReturn i`); the consumer
runs `join`, `handOff` and `create` in `produce_batch()` and reads the batch it holds
(`consumerRead`) in between. -/
inductive Action
  | workerRow (i : Nat)
  | workerFail (i : Nat)
  | workerReturn (i : Nat)
  | join
  | handOff
  | create
  | consumerRead
  deriving DecidableEq, Repr

/-- The end of the consumer's lease on the buffer it holds: the buffer becomes empty. -/
def DataLayerFacade.release {α : Type} (s : DataLayerFacade α) : DataLayerFacade α :=
  match s.handed with
  | none => s
  | some h => { s.setBuffer h { s.buffers h with state := .empty } with handed := none }

/-- Modelled from the spec: one atomic action of the pipeline; `none` when the action is not
enabled in the state (in particular `join` while the worker is not `Done`: it blocks).
* `workerRow`: `fill` pulls one record from the source and writes it into the next row;
* `workerFail`: the transform adapter fails, the worker is `Done` with a stored failure;
* `workerReturn`: `fill` returns after `batch_size` rows, the worker is `Done`;
* `join`: the newest worker is `Done`; it is discarded, the consumer's previous buffer is
  released, and either the failure is re-raised or the worker's buffer becomes ready;
* `handOff`: the active buffer is copied out as the output of the step and handed over;
* `create`: a violated precondition if a worker has not been joined, otherwise a new worker
  on the other buffer;
* `consumerRead`: the consumer reads the rows of the buffer it holds. -/
def DataLayerFacade.step {α : Type} (g : ShuffleRng) (a : Action) (s : DataLayerFacade α) :
    Option (DataLayerFacade α) :=
  match a with
  | .workerRow i =>
    match s.workers[i]? with
    | none => none
    | some w =>
      if w.state = .Running ∧ (s.buffers w.target).rows.length < s.batch_size then
        match s.source.next g with
        | none => none
        | some (r, src) =>
          some
            { s.setBuffer w.target
                { s.buffers w.target with rows := (s.buffers w.target).rows ++ [r] } with
              source := src }
      else none
  | .workerFail i =>
    match s.workers[i]? with
    | none => none
    | some w =>
      if w.state = .Running ∧ (s.buffers w.target).rows.length < s.batch_size then
        some { s with workers := s.workers.set i { w with state := .Done, failed := true } }
      else none
  | .workerReturn i =>
    match s.workers[i]? with
    | none => none
    | some w =>
      if w.state = .Running ∧ s.batch_size ≤ (s.buffers w.target).rows.length then
        some { s with workers := s.workers.set i { w with state := .Done } }
      else none
  | .join =>
    if s.phase = .awaitingJoin then
      match s.workers with
      | [] => none
      | w :: rest =>
        if w.state = .Done then
          let s1 := s.release
          if w.failed then some { s1 with workers := rest, phase := .aborted }
          else
            some
              { s1.setBuffer w.target { s1.buffers w.target with state := .ready } with
                workers := rest
                phase := .joined }
        else none
    else none
  | .handOff =>
    if s.phase = .joined then
      some
        { s with
          outputs := s.outputs ++ [(s.buffers s.active).rows]
          handed := some s.active
          phase := .handedOff }
    else none
  | .create =>
    if s.phase = .handedOff then
      if s.workers.isEmpty then some (s.spawn s.active.other)
      else some { s with misuse := true, phase := .aborted }
    else none
  | .consumerRead =>
    match s.handed with
    | none => none
    | some h => some { s with observed := s.observed ++ [(s.buffers h).rows] }

/-- Runs a schedule: a sequence of atomic actions of the worker and the consumer. -/
def DataLayerFacade.run {α : Type} (g : ShuffleRng) :
    List Action → DataLayerFacade α → Option (DataLayerFacade α)
  | [], s => some s
  | a :: rest, s =>
    match s.step g a with
    | none => none
    | some s1 => DataLayerFacade.run g rest s1

/-- Modelled from the spec: `fill` run to completion by the worker: `batch_size` rows, then
the return. -/
def DataLayerFacade.fill {α : Type} (g : ShuffleRng) (s : DataLayerFacade α) :
    Option (DataLayerFacade α) :=
  s.run g (List.replicate s.batch_size (Action.workerRow 0) ++ [Action.workerReturn 0])

/-- Modelled from the spec: `produce_batch()` (`Forward_cpu`): join, hand-off, create. -/
def DataLayerFacade.produce_batch {α : Type} (g : ShuffleRng) (s : DataLayerFacade α) :
    Option (DataLayerFacade α) :=
  s.run g [Action.join, Action.handOff, Action.create]

/-- The state after `k` steps: in each one the worker completes its fill and the consumer
calls `produce_batch()`. -/
def DataLayerFacade.steps {α : Type} (g : ShuffleRng) :
    Nat → DataLayerFacade α → Option (DataLayerFacade α)
  | 0, s => some s
  | k + 1, s =>
    match s.fill g with
    | none => none
    | some s1 =>
      match s1.produce_batch g with
      | none => none
      | some s2 => DataLayerFacade.steps g k s2

/-- A buffer is being filled: it is in the filling state or a worker object has a lease on
it. -/
def DataLayerFacade.isFilling {α : Type} (s : DataLayerFacade α) (slot : Slot) : Bool :=
  decide ((s.buffers slot).state = .filling) || s.workers.any (fun w => decide (w.target = slot))

/-- A buffer is ready: it is in the ready state or the consumer holds it. -/
def DataLayerFacade.isReady {α : Type} (s : DataLayerFacade α) (slot : Slot) : Bool :=
  decide ((s.buffers slot).state = .ready) || decide (s.handed = some slot)

/-- The number of workers in state `Running`. -/
def DataLayerFacade.runningCount {α : Type} (s : DataLayerFacade α) : Nat :=
  (s.workers.filter (fun w => decide (w.state = .Running))).length

/-- The identity shuffle RNG, for runs in which the choice of the RNG plays no role. -/
def ShuffleRng.trivial : ShuffleRng :=
  { permute := fun _ l => l, advance := fun n => n }

/-- A source over `records` that has never been shuffled, with its cursor at position `c`:
the index order is the original order. -/
def RecordSource.Unshuffled {α : Type} (records : List α) (c : Nat) (s : RecordSource α) : Prop :=
  s.records = records ∧ s.order = List.range records.length ∧ s.shuffle = false ∧ s.cursor = c

/-- A source over five records with its cursor on the last one, as reached by four calls of
`next()` after `open`. -/
def RecordSource.atLastOfFive : RecordSource Char :=
  { records := ['A', 'B', 'C', 'D', 'E'], order := [0, 1, 2, 3, 4], cursor := 4,
    shuffle := false, rngState := 0, epoch := 0 }

/-- The rational one half, in lowest terms. -/
def WindowSampler.half : ℚ :=
  { num := 1, den := 2, den_nz := by decide, reduced := by decide }

/-- The rational one tenth, in lowest terms. -/
def WindowSampler.tenth : ℚ :=
  { num := 1, den := 10, den_nz := by decide, reduced := by decide }

/-- Two window records with overlap below one half, on different images. -/
def WindowSampler.exampleWindows : List WindowRecord :=
  [{ image := 0, x1 := 0, y1 := 0, x2 := 10, y2 := 10, overlap := WindowSampler.tenth,
     label := 0, inst_id := none, cls_id := none },
   { image := 1, x1 := 5, y1 := 5, x2 := 20, y2 := 20, overlap := 0,
     label := 0, inst_id := none, cls_id := none }]

/-- The sampler opened on `exampleWindows` with both thresholds and the foreground fraction
at one half: the foreground set is empty. -/
def WindowSampler.exampleSampler : WindowSampler :=
  { fg := [], bg := WindowSampler.exampleWindows, fg_fraction := WindowSampler.half,
    fgPass := [], bgPass := WindowSampler.exampleWindows }

/-- The part of the pipeline invariant that depends on the position of the consumer. -/
def DataLayerFacade.PhaseInv {α : Type} (s : DataLayerFacade α) : Prop :=
  match s.phase with
  | .awaitingJoin =>
    ∃ w, s.workers = [w] ∧ w.target = s.active ∧
      (w.state = .Done → w.failed = false →
        (s.buffers s.active).rows.length = s.batch_size)
  | .joined => s.workers = [] ∧ (s.buffers s.active).state = .ready ∧ s.handed = none
  | .handedOff => s.workers = [] ∧ s.handed = some s.active
  | .aborted => s.workers = [] ∧ s.handed = none

/-- The invariant of the pipeline: no precondition of `create()` has been violated; every
batch handed over or read by the consumer has `batch_size` rows; a ready buffer has
`batch_size` rows; the buffer the consumer holds is ready; the buffer a worker object has a
lease on is filling; no buffer has more than `batch_size` rows; and `PhaseInv`. -/
structure DataLayerFacade.Inv {α : Type} (s : DataLayerFacade α) : Prop where
  noMisuse : s.misuse = false
  outputsFull : ∀ o ∈ s.outputs, o.length = s.batch_size
  observedFull : ∀ o ∈ s.observed, o.length = s.batch_size
  readyFull : ∀ slot, (s.buffers slot).state = .ready → (s.buffers slot).rows.length = s.batch_size
  handedReady : ∀ slot, s.handed = some slot → (s.buffers slot).state = .ready
  leasedFilling : ∀ w ∈ s.workers, (s.buffers w.target).state = .filling
  rowsBounded : ∀ slot, (s.buffers slot).rows.length ≤ s.batch_size
  phaseInv : s.PhaseInv

/-- The rows hold consecutive records of the backing list `records`, from record number
`start` on, wrapping at the end of the list. -/
def RowsFrom {α : Type} (records : List α) (start : Nat) (rows : List (Record α)) : Prop :=
  ∀ r, r < rows.length →
    ∃ p, records[(start + r) % records.length]? = some p ∧
      rows[r]? = some { index := (start + r) % records.length, payload := p }

/-- The content invariant of the pipeline over an unshuffled source: the batch handed over at
step `k` starts at record number `k * batch_size`; the buffer of the current step holds the
first rows of the next batch, and the cursor of the source is on the record that follows them. -/
def DataLayerFacade.ContentInv {α : Type} (records : List α) (s : DataLayerFacade α) : Prop :=
  (∀ k, k < s.outputs.length →
    ∃ o, s.outputs[k]? = some o ∧ RowsFrom records (k * s.batch_size) o) ∧
  match s.phase with
  | .awaitingJoin =>
    RowsFrom records (s.outputs.length * s.batch_size) (s.buffers s.active).rows ∧
    RecordSource.Unshuffled records
      ((s.outputs.length * s.batch_size + (s.buffers s.active).rows.length) % records.length)
      s.source
  | .joined =>
    RowsFrom records (s.outputs.length * s.batch_size) (s.buffers s.active).rows ∧
    RecordSource.Unshuffled records
      ((s.outputs.length * s.batch_size + (s.buffers s.active).rows.length) % records.length)
      s.source
  | .handedOff =>
    RecordSource.Unshuffled records ((s.outputs.length * s.batch_size) % records.length) s.source
  | .aborted => True

/-- The worker of the current step is running, has not failed, and has written `j` rows. -/
def DataLayerFacade.Live {α : Type} (s : DataLayerFacade α) (j : Nat) : Prop :=
  s.phase = .awaitingJoin ∧
  s.workers = [{ target := s.active, state := .Running, failed := false }] ∧
  (s.buffers s.active).rows.length = j

/-- The facade set up on the records `[A, B, C, D, E]` with batch size 4 and shuffle
disabled. -/
def DataLayerFacade.exampleStart : DataLayerFacade Char :=
  DataLayerFacade.spawn
    { batch_size := 4,
      source :=
        { records := ['A', 'B', 'C', 'D', 'E'], order := List.range 5, cursor := 0,
          shuffle := false, rngState := 0, epoch := 0 },
      buffers := fun _ => { rows := [], state := .empty },
      active := .A, workers := [], phase := .handedOff, handed := none,
      outputs := [], observed := [], misuse := false }
    .A

/-- A schedule: the first worker fills its buffer and returns; the consumer joins it, takes
the batch, reads it, creates the next worker and reads the batch again between two rows of
the next worker. -/
def DataLayerFacade.exampleSchedule : List Action :=
  [.workerRow 0, .workerRow 0, .workerRow 0, .workerRow 0, .workerReturn 0, .join, .handOff,
   .consumerRead, .create, .workerRow 0, .consumerRead, .workerRow 0]

/-- The state of `exampleStart` after `exampleSchedule`. -/
def DataLayerFacade.exampleAfter : DataLayerFacade Char :=
  (DataLayerFacade.exampleStart.run ShuffleRng.trivial DataLayerFacade.exampleSchedule).getD
    DataLayerFacade.exampleStart

/-- The data members of the header that are of type `Blob<Dtype>`, and the member
`prefetch_rng_`, which shares the name prefix of the prefetch buffers but is a
`shared_ptr<Caffe::RNG>`. -/
inductive DataMember
  | prefetch_data_
  | prefetch_label_
  | transformed_data_
  | data_blob_
  | label_blob_
  | prefetch_rng_
  | added_data_
  | added_label_
  | data_mean_
  | prefetch_ctrl_data_
  | prefetch_cls_data_
  | prefetch_data_dim_
  | transformed_label_
  | transformed_ctrl_data_
  | class_label_
  | seg_label_buffer_
  | computed_label_
  deriving DecidableEq, Repr

/-- The member is declared with type `Blob<Dtype>`. -/
def DataMember.isBlob : DataMember → Bool
  | .prefetch_rng_ => false
  | _ => true

/-- The name of the member starts with `prefetch_`. -/
def DataMember.hasPrefetchName : DataMember → Bool
  | .prefetch_data_ => true
  | .prefetch_label_ => true
  | .prefetch_rng_ => true
  | .prefetch_ctrl_data_ => true
  | .prefetch_cls_data_ => true
  | .prefetch_data_dim_ => true
  | _ => false

open DataMember in
/-- The members of `DataMember` each class of the header declares itself, in declaration
order. -/
def declaredData : LayerClass → List DataMember
  | .BasePrefetchingDataLayer => [prefetch_data_, prefetch_label_, transformed_data_]
  | .HDF5OutputLayer => [data_blob_, label_blob_]
  | .ImageDataLayer => [prefetch_rng_]
  | .MemoryDataLayer => [added_data_, added_label_]
  | .WindowDataLayer => [prefetch_rng_, data_mean_]
  | .ImageSegCtrlPrefetchingDataLayer => [prefetch_ctrl_data_]
  | .ImageSegCtrlClsPrefetchingDataLayer => [prefetch_ctrl_data_, prefetch_cls_data_]
  | .ImageDimPrefetchingDataLayer => [prefetch_data_dim_]
  | .ImageSegDataLayer => [transformed_label_, prefetch_rng_]
  | .WindowSegDataLayer => [transformed_label_, prefetch_rng_]
  | .WindowSegBinaryLayer => [transformed_label_, prefetch_rng_]
  | .SegBinaryCtrlLayer => [transformed_label_, transformed_ctrl_data_, prefetch_rng_]
  | .SelectSegBinaryLayer => [transformed_label_, class_label_, prefetch_rng_]
  | .WindowClsDataLayer => [seg_label_buffer_, transformed_label_, computed_label_, prefetch_rng_]
  | .WindowInstSegDataLayer => [transformed_label_, prefetch_rng_]
  | _ => []

/-- The members of `DataMember` an object of class `c` holds: those of its base classes,
then its own; the search follows at most `fuel` inheritance edges. -/
def heldDataAux : Nat → LayerClass → List DataMember
  | 0, c => declaredData c
  | fuel + 1, c => (bases c).flatMap (heldDataAux fuel) ++ declaredData c

/-- The members of `DataMember` an object of class `c` holds. -/
def heldData (c : LayerClass) : List DataMember :=
  heldDataAux allClasses.length c

/-- The prefetch output buffers of an object of class `c`: the `Blob<Dtype>` members it
holds whose name starts with `prefetch_`. -/
def prefetchBuffers (c : LayerClass) : List DataMember :=
  (heldData c).filter (fun m => m.isBlob && m.hasPrefetchName)

/-- The largest output count a class declares: `ExactNumTopBlobs()` where declared,
otherwise `MaxTopBlobs()`. -/
def largestTopCount (c : LayerClass) : Option Int :=
  match ExactNumTopBlobs c with
  | some e => some e
  | none => MaxTopBlobs c

open LayerClass in
/-- The concrete layers for which `type()` returns `IMAGE_DATA`. -/
def imageDataGroup : List LayerClass :=
  ImageDataLayer :: segmentationLayers

/-! ## Theorems about the class declarations -/

theorem allClasses_complete (c : LayerClass) : c ∈ allClasses := by
  cases c <;> decide

theorem derivesFromAux_sound : ∀ (n : Nat) (c b : LayerClass),
    derivesFromAux n c b = true → Derives c b := by
  intro n
  induction n with
  | zero => intro c b h; simp [derivesFromAux] at h
  | succ n ih =>
    intro c b h
    simp only [derivesFromAux, List.any_eq_true, Bool.or_eq_true, beq_iff_eq] at h
    obtain ⟨d, hd, h | h⟩ := h
    · subst h; exact Derives.direct hd
    · exact Derives.step hd (ih d b h)

theorem derivesFrom_closed :
    ∀ c ∈ allClasses, ∀ d ∈ bases c, ∀ b ∈ allClasses,
      (d = b ∨ derivesFrom d b = true) → derivesFrom c b = true := by
  decide

/-- The search `derivesFrom` decides the transitive closure `Derives` of the base-class lists. -/
theorem derivesFrom_iff (c b : LayerClass) : derivesFrom c b = true ↔ Derives c b := by
  constructor
  · exact derivesFromAux_sound _ c b
  · intro h
    induction h with
    | direct hb =>
      exact derivesFrom_closed _ (allClasses_complete _) _ hb _ (allClasses_complete _) (Or.inl rfl)
    | step hd _ ih =>
      exact derivesFrom_closed _ (allClasses_complete _) _ hd _ (allClasses_complete _) (Or.inr ih)

theorem ExactNumTopBlobs_eq (c : LayerClass) : ExactNumTopBlobs c = declExactNumTopBlobs c := by
  cases c <;> rfl

theorem MinTopBlobs_eq (c : LayerClass) : MinTopBlobs c = declMinTopBlobs c := by
  cases c <;> rfl

theorem MaxTopBlobs_eq (c : LayerClass) : MaxTopBlobs c = declMaxTopBlobs c := by
  cases c <;> rfl

theorem ExactNumBottomBlobs_eq (c : LayerClass) :
    ExactNumBottomBlobs c = declExactNumBottomBlobs c := by
  cases c <;> rfl

/-! ### C6 -/

/-- C6 (as stated, refuted): `MemoryDataLayer` defines `type()`, so it is a concrete layer
variant, but it does not derive from `BasePrefetchingDataLayer`, and it has neither
`CreatePrefetchThread` nor `JoinPrefetchThread`. -/
theorem memory_layer_not_prefetching :
    isConcrete LayerClass.MemoryDataLayer = true ∧
    ¬ Derives LayerClass.MemoryDataLayer LayerClass.BasePrefetchingDataLayer ∧
    provider Member.CreatePrefetchThread LayerClass.MemoryDataLayer = none ∧
    provider Member.JoinPrefetchThread LayerClass.MemoryDataLayer = none := by
  refine ⟨by decide, ?_, by decide, by decide⟩
  rw [← derivesFrom_iff]
  decide

/-- C6 (amended): of the fourteen concrete layer variants, exactly the ten of
`prefetchingLayers` derive from `BasePrefetchingDataLayer`; each of them takes
`CreatePrefetchThread` and `JoinPrefetchThread` from that class, and takes `LayerSetUp`,
`Forward_cpu` and `Forward_gpu` either from that class (`DataLayer`, `ImageDataLayer`,
`WindowDataLayer`) or from the redeclaration in its intermediate prefetching base (the seven
segmentation variants). The other four (`DummyDataLayer`, `HDF5DataLayer`, `HDF5OutputLayer`,
`MemoryDataLayer`) do not derive from it and have no prefetch-thread members. -/
theorem prefetching_base_of_concrete (c : LayerClass) (hc : isConcrete c = true) :
    concreteLayers.length = 14 ∧
    (Derives c LayerClass.BasePrefetchingDataLayer ↔ c ∈ prefetchingLayers) ∧
    (¬ Derives c LayerClass.BasePrefetchingDataLayer ↔ c ∈ directLayers) ∧
    (c ∈ prefetchingLayers →
      provider Member.CreatePrefetchThread c = some LayerClass.BasePrefetchingDataLayer ∧
      provider Member.JoinPrefetchThread c = some LayerClass.BasePrefetchingDataLayer ∧
      (c ∉ segmentationLayers →
        provider Member.LayerSetUp c = some LayerClass.BasePrefetchingDataLayer ∧
        provider Member.Forward_cpu c = some LayerClass.BasePrefetchingDataLayer ∧
        provider Member.Forward_gpu c = some LayerClass.BasePrefetchingDataLayer) ∧
      (c ∈ segmentationLayers →
        ∃ b, b ∈ bases c ∧ Derives b LayerClass.BasePrefetchingDataLayer ∧
          provider Member.LayerSetUp c = some b ∧
          provider Member.Forward_cpu c = some b ∧
          provider Member.Forward_gpu c = some b)) ∧
    (c ∈ directLayers →
      provider Member.CreatePrefetchThread c = none ∧
      provider Member.JoinPrefetchThread c = none) := by
  simp only [← derivesFrom_iff]
  refine ⟨by decide, ?_, ?_, ?_, ?_⟩
  · revert hc; cases c <;> decide
  · revert hc; cases c <;> decide
  · intro hp
    refine ⟨?_, ?_, ?_, ?_⟩
    · revert hp; cases c <;> decide
    · revert hp; cases c <;> decide
    · revert hp; cases c <;> decide
    · intro hs
      refine ⟨(bases c).headD c, ?_⟩
      revert hs; cases c <;> decide
  · cases c <;> decide

/-- C6 (amended), instantiated at `ImageSegDataLayer`. -/
theorem prefetching_base_of_concrete_witness :
    isConcrete LayerClass.ImageSegDataLayer = true ∧
    (Derives LayerClass.ImageSegDataLayer LayerClass.BasePrefetchingDataLayer ↔
      LayerClass.ImageSegDataLayer ∈ prefetchingLayers) :=
  ⟨by decide, (prefetching_base_of_concrete LayerClass.ImageSegDataLayer (by decide)).2.1⟩

/-! ### C7 -/

/-- C7 (as stated, refuted): `HDF5OutputLayer` is a concrete layer variant whose declared
output arity is `ExactNumTopBlobs() = 0`; it admits the empty output list and no other one,
so it admits an output list without a primary payload tensor. -/
theorem hdf5_output_admits_no_top :
    isConcrete LayerClass.HDF5OutputLayer = true ∧
    ExactNumTopBlobs LayerClass.HDF5OutputLayer = some 0 ∧
    admitsTopCount LayerClass.HDF5OutputLayer 0 = true ∧
    ¬ (∀ c : LayerClass, isConcrete c = true → ∀ n : Nat, admitsTopCount c n = true → 1 ≤ n) := by
  refine ⟨by decide, by decide, by decide, ?_⟩
  intro h
  exact absurd (h LayerClass.HDF5OutputLayer (by decide) 0 (by decide)) (by decide)

/-- C7 (amended): every concrete layer variant other than `HDF5OutputLayer` admits only
output lists with at least one tensor; `DataLayer` admits exactly the counts 1 and 2;
`HDF5OutputLayer` admits exactly the count 0. -/
theorem top_arity_of_concrete (c : LayerClass) (hc : isConcrete c = true) (n : Nat) :
    (c ≠ LayerClass.HDF5OutputLayer → admitsTopCount c n = true → 1 ≤ n) ∧
    (admitsTopCount LayerClass.DataLayer n = true ↔ n = 1 ∨ n = 2) ∧
    (admitsTopCount LayerClass.HDF5OutputLayer n = true ↔ n = 0) := by
  refine ⟨?_, ?_, ?_⟩
  · intro hne
    revert hc hne
    cases c <;>
      simp [isConcrete, declType, admitsTopCount, ExactNumTopBlobs_eq, MinTopBlobs_eq,
        MaxTopBlobs_eq, declExactNumTopBlobs, declMinTopBlobs, declMaxTopBlobs] <;> omega
  · simp [admitsTopCount, ExactNumTopBlobs_eq, MinTopBlobs_eq,
        MaxTopBlobs_eq, declExactNumTopBlobs, declMinTopBlobs, declMaxTopBlobs]
    omega
  · simp [admitsTopCount, ExactNumTopBlobs_eq, MinTopBlobs_eq,
        MaxTopBlobs_eq, declExactNumTopBlobs, declMinTopBlobs, declMaxTopBlobs]

/-- C7 (amended), instantiated at `DummyDataLayer` with two outputs. -/
theorem top_arity_of_concrete_witness :
    isConcrete LayerClass.DummyDataLayer = true ∧
    admitsTopCount LayerClass.DummyDataLayer 2 = true ∧ 1 ≤ 2 :=
  ⟨by decide, by decide,
    (top_arity_of_concrete LayerClass.DummyDataLayer (by decide) 2).1 (by decide) (by decide)⟩

/-! ### C8 -/

/-- C8: for every concrete layer variant, `AutoTopBlobs()` (with the default `false` of `Layer`)
is true exactly for the seven segmentation and window-segmentation layers, and a variant with
`AutoTopBlobs()` true declares `ExactNumTopBlobs() = 3` and `ExactNumBottomBlobs() = 0`: the
only output count it admits is 3, and automatic completion of any shorter output list yields 3
outputs. -/
theorem auto_top_blobs_of_concrete (c : LayerClass) (hc : isConcrete c = true) :
    segmentationLayers.length = 7 ∧
    (AutoTopBlobs false c = true ↔ c ∈ segmentationLayers) ∧
    (AutoTopBlobs false c = true →
      ExactNumTopBlobs c = some 3 ∧ ExactNumBottomBlobs c = some 0 ∧
      (∀ n : Nat, admitsTopCount c n = true ↔ n = 3) ∧
      (∀ n : Nat, n ≤ 3 → autoCompleteTops false c n = 3) ∧
      (∀ n : Nat, admitsTopCount c (autoCompleteTops false c n) = true →
        autoCompleteTops false c n = 3)) := by
  refine ⟨by decide, ?_, ?_⟩
  · revert hc; cases c <;> decide
  · intro ha
    have hex : ExactNumTopBlobs c = some 3 := by revert ha hc; cases c <;> decide
    have hmin : MinTopBlobs c = none := by revert ha hc; cases c <;> decide
    have hmax : MaxTopBlobs c = none := by revert ha hc; cases c <;> decide
    have hadm : ∀ n : Nat, admitsTopCount c n = true ↔ n = 3 := by
      intro n
      simp only [admitsTopCount, hex, hmin, hmax, Bool.and_true, decide_eq_true_eq]
      omega
    refine ⟨hex, ?_, hadm, ?_, ?_⟩
    · revert ha hc; cases c <;> decide
    · intro n hn
      simp only [autoCompleteTops, ha, hex, hmin, if_true, Option.getD_some, Option.getD_none]
      have : (max (3 : Int) 0).toNat = 3 := by decide
      rw [this]
      omega
    · intro n hn
      exact (hadm _).1 hn

/-- C8, instantiated at `SegBinaryCtrlLayer`. -/
theorem auto_top_blobs_of_concrete_witness :
    isConcrete LayerClass.SegBinaryCtrlLayer = true ∧
    (AutoTopBlobs false LayerClass.SegBinaryCtrlLayer = true ↔
      LayerClass.SegBinaryCtrlLayer ∈ segmentationLayers) :=
  ⟨by decide, (auto_top_blobs_of_concrete LayerClass.SegBinaryCtrlLayer (by decide)).2.1⟩

/-! ### C9 -/

/-- C9 (as stated, refuted): `HDF5OutputLayer` is a concrete layer class that carries the
comment "Data layers have no bottoms", yet it declares `ExactNumBottomBlobs() = 2`. -/
theorem hdf5_output_has_bottoms :
    isConcrete LayerClass.HDF5OutputLayer = true ∧
    carriesNoBottomsComment LayerClass.HDF5OutputLayer = true ∧
    ExactNumBottomBlobs LayerClass.HDF5OutputLayer = some 2 ∧
    ExactNumBottomBlobs LayerClass.HDF5OutputLayer ≠ some 0 := by
  decide

/-- C9 (amended): every concrete layer class that derives from `BaseDataLayer`, and every
concrete layer class other than `HDF5OutputLayer` that carries the comment "Data layers have
no bottoms", declares `ExactNumBottomBlobs() = 0`; `HDF5OutputLayer`, which carries the
comment too and derives from `Layer` only, declares `ExactNumBottomBlobs() = 2`. In all,
thirteen of the fourteen concrete classes declare 0. -/
theorem no_bottoms_of_concrete (c : LayerClass) (hc : isConcrete c = true) :
    (Derives c LayerClass.BaseDataLayer → ExactNumBottomBlobs c = some 0) ∧
    (carriesNoBottomsComment c = true → c ≠ LayerClass.HDF5OutputLayer →
      ExactNumBottomBlobs c = some 0) ∧
    (c ≠ LayerClass.HDF5OutputLayer → ExactNumBottomBlobs c = some 0) ∧
    ¬ Derives LayerClass.HDF5OutputLayer LayerClass.BaseDataLayer ∧
    ExactNumBottomBlobs LayerClass.HDF5OutputLayer = some 2 := by
  simp only [← derivesFrom_iff]
  refine ⟨?_, ?_, ?_, by decide, by decide⟩
  · revert hc; cases c <;> decide
  · revert hc; cases c <;> decide
  · revert hc; cases c <;> decide

/-- C9 (amended), instantiated at `MemoryDataLayer`. -/
theorem no_bottoms_of_concrete_witness :
    isConcrete LayerClass.MemoryDataLayer = true ∧
    LayerClass.MemoryDataLayer ≠ LayerClass.HDF5OutputLayer ∧
    ExactNumBottomBlobs LayerClass.MemoryDataLayer = some 0 :=
  ⟨by decide, by decide,
    (no_bottoms_of_concrete LayerClass.MemoryDataLayer (by decide)).2.2.1 (by decide)⟩

/-! ### C10 -/

/-- C10: `enum WindowField` has `NUM = 7` and the seven named fields `IMAGE_INDEX = 0`,
`LABEL = 1`, `OVERLAP = 2`, `X1 = 3`, `Y1 = 4`, `X2 = 5`, `Y2 = 6`; the values of the named
fields are pairwise distinct, consecutive from 0 and strictly below `NUM`, so each one is a
valid position in a window vector of length `NUM`. -/
theorem window_field_layout :
    WindowField.NUM.value = 7 ∧
    WindowField.IMAGE_INDEX.value = 0 ∧ WindowField.LABEL.value = 1 ∧
    WindowField.OVERLAP.value = 2 ∧ WindowField.X1.value = 3 ∧ WindowField.Y1.value = 4 ∧
    WindowField.X2.value = 5 ∧ WindowField.Y2.value = 6 ∧
    WindowField.fields.length = WindowField.NUM.value ∧
    WindowField.fields.map WindowField.value = List.range WindowField.NUM.value ∧
    (∀ f : WindowField, f = WindowField.NUM ∨ f.value < WindowField.NUM.value) ∧
    (∀ f g : WindowField, f.value = g.value ↔ f = g) ∧
    (∀ (w : List ℚ) (f : WindowField), w.length = WindowField.NUM.value →
      f = WindowField.NUM ∨ (w.get? f.value).isSome = true) := by
  refine ⟨by decide, by decide, by decide, by decide, by decide, by decide, by decide,
    by decide, by decide, by decide, ?_, ?_, ?_⟩
  · intro f; cases f <;> decide
  · intro f g; cases f <;> cases g <;> decide
  · intro w f hw
    have hf : f = WindowField.NUM ∨ f.value < WindowField.NUM.value := by cases f <;> decide
    rcases hf with hf | hf
    · exact Or.inl hf
    · right
      rw [← hw] at hf
      simp [List.get?_eq_getElem?, List.getElem?_eq_getElem hf]

/-! ## Theorems about the record source -/

theorem RecordSource.open_unshuffled {α : Type} (records : List α) (seed : Nat)
    (h : records ≠ []) :
    ∃ s, RecordSource.open records false seed = .ok s ∧ RecordSource.Unshuffled records 0 s := by
  have : records.isEmpty = false := by
    cases records with
    | nil => exact absurd rfl h
    | cons a l => rfl
  simp only [RecordSource.open, this, Bool.false_eq_true, if_false]
  exact ⟨_, rfl, rfl, rfl, rfl, rfl⟩

/-- One call of `next()` on an unshuffled source returns the record under the cursor and moves
the cursor one position further, wrapping at the end. -/
theorem RecordSource.next_unshuffled {α : Type} (g : ShuffleRng) (records : List α) (c : Nat)
    (s : RecordSource α) (hs : RecordSource.Unshuffled records c s) (hc : c < records.length) :
    ∃ p s1, records[c]? = some p ∧ s.next g = some ({ index := c, payload := p }, s1) ∧
      RecordSource.Unshuffled records ((c + 1) % records.length) s1 := by
  obtain ⟨h1, h2, h3, h4⟩ := hs
  have ho : s.order[c]? = some c := by
    rw [h2, List.getElem?_range hc]
  have hr : records[c]? = some records[c] := List.getElem?_eq_getElem hc
  have key : ∃ s1, s.next g = some ({ index := c, payload := records[c] }, s1) ∧
      RecordSource.Unshuffled records ((c + 1) % records.length) s1 := by
    simp only [RecordSource.next, RecordSource.total_count, h1, h4, ho, hr]
    refine ⟨_, rfl, ?_⟩
    by_cases hw : records.length ≤ c + 1
    · have hmod : (c + 1) % records.length = 0 := by
        have : c + 1 = records.length := by omega
        rw [this, Nat.mod_self]
      simp only [hw, if_true, RecordSource.reset_epoch, h3, Bool.false_eq_true, if_false, hmod]
      exact ⟨rfl, h2, rfl, rfl⟩
    · have hmod : (c + 1) % records.length = c + 1 := Nat.mod_eq_of_lt (by omega)
      simp only [hw, if_false, hmod]
      exact ⟨rfl, h2, h3, rfl⟩
  obtain ⟨s1, hn, hu⟩ := key
  exact ⟨records[c], s1, hr, hn, hu⟩

/-- The records of `n` consecutive calls of `next()` on an unshuffled source: call number `j`
returns record `(c + j) mod T`, and the cursor ends at `(c + n) mod T`. -/
theorem RecordSource.nexts_unshuffled {α : Type} (g : ShuffleRng) (records : List α) :
    ∀ (n c : Nat) (s : RecordSource α), RecordSource.Unshuffled records c s →
      c < records.length →
      ∃ rs s1, RecordSource.nexts g n s = some (rs, s1) ∧
        RecordSource.Unshuffled records ((c + n) % records.length) s1 ∧
        rs.map Record.index = (List.range n).map (fun j => (c + j) % records.length) ∧
        ∀ r ∈ rs, records[r.index]? = some r.payload := by
  intro n
  induction n with
  | zero =>
    intro c s hs hc
    refine ⟨[], s, rfl, ?_, rfl, by simp⟩
    rw [Nat.add_zero, Nat.mod_eq_of_lt hc]
    exact hs
  | succ n ih =>
    intro c s hs hc
    obtain ⟨p, s1, hp, hnext, hs1⟩ := RecordSource.next_unshuffled g records c s hs hc
    have hT : 0 < records.length := by omega
    obtain ⟨rs, s2, hrs, hs2, hidx, hpay⟩ := ih ((c + 1) % records.length) s1 hs1
      (Nat.mod_lt _ hT)
    refine ⟨{ index := c, payload := p } :: rs, s2, ?_, ?_, ?_, ?_⟩
    · simp only [RecordSource.nexts, hnext, hrs]
    · have : ((c + 1) % records.length + n) % records.length = (c + (n + 1)) % records.length := by
        rw [Nat.add_mod, Nat.mod_mod, ← Nat.add_mod]; congr 1; omega
      rw [← this]; exact hs2
    · rw [List.map_cons, hidx, List.range_succ_eq_map, List.map_cons, List.map_map]
      congr 1
      · simp [Nat.mod_eq_of_lt hc]
      · apply List.map_congr_left
        intro j _
        simp only [Function.comp]
        rw [Nat.add_mod, Nat.mod_mod, ← Nat.add_mod]; congr 1; omega
    · intro r hr
      rcases List.mem_cons.1 hr with h | h
      · subst h; exact hp
      · exact hpay r h

theorem range_rotate_eq_map (T c : Nat) :
    (List.range T).rotate c = (List.range T).map (fun j => (c + j) % T) := by
  apply List.ext_getElem
  · simp
  · intro k h1 h2
    rw [List.getElem_rotate]
    simp only [List.getElem_range, List.length_range, List.getElem_map]
    rw [Nat.add_comm]

/-! ### C2 -/

/-- C2 (as stated, refuted): four calls of `next()` after `open` on the records
`[A, B, C, D, E]` leave the cursor on the last record; the contiguous run of `total_count = 5`
calls that starts there returns the record indices `4, 0, 1, 2, 3`: each index once, but not
in the original order `0, 1, 2, 3, 4`. -/
theorem epoch_run_from_last_not_in_order :
    ((RecordSource.open ['A', 'B', 'C', 'D', 'E'] false 0).toOption.bind
      (fun s => (RecordSource.nexts ShuffleRng.trivial 4 s).map Prod.snd)) =
        some RecordSource.atLastOfFive ∧
    RecordSource.atLastOfFive.total_count = 5 ∧
    (RecordSource.nexts ShuffleRng.trivial 5 RecordSource.atLastOfFive).map
      (fun p => p.1.map Record.index) = some [4, 0, 1, 2, 3] ∧
    [4, 0, 1, 2, 3] ≠ List.range 5 ∧
    ¬ List.Pairwise (fun i j : Nat => i < j) [4, 0, 1, 2, 3] := by
  refine ⟨by decide, by decide, by decide, by decide, by decide⟩

/-- C2 (amended): with shuffle disabled, a contiguous run of exactly `total_count` calls of
`next()` on a non-empty source that starts with the cursor at position `c` returns every
original record index exactly once, in the original order rotated to start at `c`
(`c, c+1, ..., T-1, 0, ..., c-1`), each with the payload stored at that index, and leaves the
cursor at `c` again; the run is in the original order itself exactly when `c = 0`. -/
theorem epoch_run_is_rotation {α : Type} (g : ShuffleRng) (records : List α) (c : Nat)
    (s : RecordSource α) (hs : RecordSource.Unshuffled records c s) (hc : c < records.length) :
    ∃ rs s1, RecordSource.nexts g s.total_count s = some (rs, s1) ∧
      rs.length = records.length ∧
      rs.map Record.index = (List.range records.length).rotate c ∧
      (∀ i, i < records.length → (rs.map Record.index).count i = 1) ∧
      (∀ r ∈ rs, records[r.index]? = some r.payload) ∧
      (rs.map Record.index = List.range records.length ↔ c = 0) ∧
      RecordSource.Unshuffled records c s1 := by
  obtain ⟨rs, s1, hrun, hs1, hidx, hpay⟩ :=
    RecordSource.nexts_unshuffled g records records.length c s hs hc
  have hT : 0 < records.length := by omega
  have hrot : rs.map Record.index = (List.range records.length).rotate c := by
    rw [hidx, range_rotate_eq_map]
  have hlen : rs.length = records.length := by
    have := congrArg List.length hidx
    simpa using this
  refine ⟨rs, s1, ?_, hlen, hrot, ?_, hpay, ?_, ?_⟩
  · rw [RecordSource.total_count, hs.1]; exact hrun
  · intro i hi
    rw [hrot]
    apply List.count_eq_one_of_mem
    · exact List.nodup_rotate.2 (List.nodup_range _)
    · rw [List.mem_rotate]; exact List.mem_range.2 hi
  · constructor
    · intro h
      have h0 : (rs.map Record.index)[0]? = (List.range records.length)[0]? := by rw [h]
      rw [hidx] at h0
      simp only [List.getElem?_map, List.getElem?_range hT, Option.map_some', Nat.add_zero,
        Nat.mod_eq_of_lt hc] at h0
      exact Option.some.inj h0
    · intro h
      rw [hrot, h, List.rotate_zero]
  · have : (c + records.length) % records.length = c := by
      rw [Nat.add_mod_right, Nat.mod_eq_of_lt hc]
    rw [this] at hs1; exact hs1

/-- C2 (amended), instantiated at the source with five records and cursor 4. -/
theorem epoch_run_is_rotation_witness :
    RecordSource.Unshuffled ['A', 'B', 'C', 'D', 'E'] 4 RecordSource.atLastOfFive ∧
    (4 < ['A', 'B', 'C', 'D', 'E'].length) ∧
    ∃ rs s1, RecordSource.nexts ShuffleRng.trivial RecordSource.atLastOfFive.total_count
        RecordSource.atLastOfFive = some (rs, s1) ∧
      rs.length = ['A', 'B', 'C', 'D', 'E'].length ∧
      rs.map Record.index = (List.range ['A', 'B', 'C', 'D', 'E'].length).rotate 4 ∧
      (∀ i, i < ['A', 'B', 'C', 'D', 'E'].length → (rs.map Record.index).count i = 1) ∧
      (∀ r ∈ rs, ['A', 'B', 'C', 'D', 'E'][r.index]? = some r.payload) ∧
      (rs.map Record.index = List.range ['A', 'B', 'C', 'D', 'E'].length ↔ 4 = 0) ∧
      RecordSource.Unshuffled ['A', 'B', 'C', 'D', 'E'] 4 s1 :=
  ⟨⟨rfl, rfl, rfl, rfl⟩, by decide,
    epoch_run_is_rotation ShuffleRng.trivial ['A', 'B', 'C', 'D', 'E'] 4
      RecordSource.atLastOfFive ⟨rfl, rfl, rfl, rfl⟩ (by decide)⟩

/-! ## Theorems about the window sampler -/

/-- A draw from a non-empty window set succeeds with a window of the set, and the windows left
in the pass stay within the set. -/
theorem WindowSampler.drawFrom_mem (set pass : List WindowRecord) (r : Nat) (hset : set ≠ [])
    (hpass : ∀ w ∈ pass, w ∈ set) :
    ∃ w p, WindowSampler.drawFrom set pass r = some (w, p) ∧ w ∈ set ∧ ∀ x ∈ p, x ∈ set := by
  have key : ∀ pool : List WindowRecord, pool ≠ [] → (∀ w ∈ pool, w ∈ set) →
      ∃ w p, (match pool[r % pool.length]? with
        | some w => some (w, pool.eraseIdx (r % pool.length))
        | none => none) = some (w, p) ∧ w ∈ set ∧ ∀ x ∈ p, x ∈ set := by
    intro pool hne hsub
    have hlt : r % pool.length < pool.length := Nat.mod_lt _ (List.length_pos.2 hne)
    refine ⟨pool[r % pool.length], pool.eraseIdx (r % pool.length), ?_, ?_, ?_⟩
    · rw [List.getElem?_eq_getElem hlt]
    · exact hsub _ (List.getElem_mem hlt)
    · intro x hx
      exact hsub x ((List.eraseIdx_subset _ _) hx)
  unfold WindowSampler.drawFrom
  by_cases hp : pass.isEmpty = true
  · simp only [hp, if_true]
    exact key set hset (fun w hw => hw)
  · simp only [hp, Bool.false_eq_true, if_false]
    refine key pass ?_ hpass
    intro h; rw [h] at hp; exact hp rfl

/-- With an empty foreground set and a non-empty background set, every sequence of draws
succeeds and returns background windows only. -/
theorem WindowSampler.draws_background (ds : List (ℚ × Nat)) :
    ∀ s : WindowSampler, s.fg = [] → s.bg ≠ [] → (∀ w ∈ s.bgPass, w ∈ s.bg) →
      ∃ ws s1, s.draws ds = .ok (ws, s1) ∧ ws.length = ds.length ∧ (∀ w ∈ ws, w ∈ s.bg) ∧
        s1.fg = [] ∧ s1.bg = s.bg ∧ s1.fg_fraction = s.fg_fraction := by
  induction ds with
  | nil =>
    intro s hfg _ _
    exact ⟨[], s, rfl, rfl, by simp, hfg, rfl, rfl⟩
  | cons d rest ih =>
    intro s hfg hbg hpass
    obtain ⟨u, r⟩ := d
    obtain ⟨w, p, hdraw, hw, hp⟩ := WindowSampler.drawFrom_mem s.bg s.bgPass r hbg hpass
    have hnext : s.next u r = .ok (w, { s with bgPass := p }) := by
      simp only [WindowSampler.next, hfg, List.isEmpty_nil, not_true_eq_false, and_false,
        if_false, hdraw]
    obtain ⟨ws, s2, hrest, hlen, hmem, hfg2, hbg2, hfr2⟩ :=
      ih { s with bgPass := p } hfg hbg hp
    refine ⟨w :: ws, s2, ?_, ?_, ?_, hfg2, hbg2, hfr2⟩
    · simp only [WindowSampler.draws, hnext, hrest]
    · simp [hlen]
    · intro x hx
      rcases List.mem_cons.1 hx with h | h
      · rw [h]; exact hw
      · exact hmem x h

/-! ### C4 -/

/-- C4: when the window sampler is opened with an empty foreground set and a non-empty
background set, then for every foreground fraction and every sequence of random draws (a
uniform value and a random index per draw), every `next()` succeeds and returns an element of
the background set. -/
theorem background_fallback (windows : List WindowRecord) (fg_threshold bg_threshold : ℚ)
    (fg_fraction : ℚ) (s : WindowSampler)
    (hopen : WindowSampler.open windows fg_threshold bg_threshold fg_fraction = .ok s)
    (hfg : s.fg = []) (hbg : s.bg ≠ []) (ds : List (ℚ × Nat)) :
    s.fg_fraction = fg_fraction ∧
    ∃ ws s1, s.draws ds = .ok (ws, s1) ∧ ws.length = ds.length ∧ (∀ w ∈ ws, w ∈ s.bg) ∧
      s1.fg = [] ∧ s1.bg = s.bg := by
  have hs : s.bgPass = s.bg ∧ s.fg_fraction = fg_fraction := by
    unfold WindowSampler.open at hopen
    simp only at hopen
    split at hopen
    · cases hopen
    · cases hopen; exact ⟨rfl, rfl⟩
  obtain ⟨ws, s1, h1, h2, h3, h4, h5, _⟩ :=
    WindowSampler.draws_background ds s hfg hbg (by rw [hs.1]; exact fun w hw => hw)
  exact ⟨hs.2, ws, s1, h1, h2, h3, h4, h5⟩

/-- C4, instantiated at the scenario of the specification: empty foreground set, foreground
fraction one half, two background windows, three draws. -/
theorem background_fallback_witness :
    WindowSampler.half = 1 / 2 ∧
    WindowSampler.open WindowSampler.exampleWindows WindowSampler.half WindowSampler.half
      WindowSampler.half = .ok WindowSampler.exampleSampler ∧
    WindowSampler.exampleSampler.fg = [] ∧ WindowSampler.exampleSampler.bg ≠ [] ∧
    ∃ ws s1, WindowSampler.exampleSampler.draws [(0, 0), (WindowSampler.half, 5), (1, 1)] =
        .ok (ws, s1) ∧
      ws.length = [((0 : ℚ), 0), (WindowSampler.half, 5), (1, 1)].length ∧
      (∀ w ∈ ws, w ∈ WindowSampler.exampleSampler.bg) ∧
      s1.fg = [] ∧ s1.bg = WindowSampler.exampleSampler.bg :=
  ⟨by show Rat.mk' 1 2 _ _ = _; rw [Rat.mk'_eq_divInt, Rat.divInt_eq_div]; norm_num,
    rfl, rfl, by decide,
    (background_fallback WindowSampler.exampleWindows WindowSampler.half WindowSampler.half
      WindowSampler.half WindowSampler.exampleSampler rfl rfl (by decide)
      [(0, 0), (WindowSampler.half, 5), (1, 1)]).2⟩

/-! ## Theorems about the prefetching pipeline -/

@[simp] theorem DataLayerFacade.buffers_release {α : Type} (s : DataLayerFacade α) (c : Slot) :
    s.release.buffers c =
      if s.handed = some c then { s.buffers c with state := .empty } else s.buffers c := by
  unfold DataLayerFacade.release
  cases hh : s.handed with
  | none => simp
  | some h =>
    by_cases hc : c = h
    · subst hc; simp [DataLayerFacade.setBuffer]
    · have : h ≠ c := fun e => hc e.symm
      simp [DataLayerFacade.setBuffer, hc, this]

@[simp] theorem DataLayerFacade.handed_release {α : Type} (s : DataLayerFacade α) :
    s.release.handed = none := by
  unfold DataLayerFacade.release
  cases hh : s.handed <;> simp [hh]

@[simp] theorem DataLayerFacade.misuse_release {α : Type} (s : DataLayerFacade α) :
    s.release.misuse = s.misuse := by
  unfold DataLayerFacade.release
  cases hh : s.handed <;> rfl

@[simp] theorem DataLayerFacade.outputs_release {α : Type} (s : DataLayerFacade α) :
    s.release.outputs = s.outputs := by
  unfold DataLayerFacade.release
  cases hh : s.handed <;> rfl

@[simp] theorem DataLayerFacade.observed_release {α : Type} (s : DataLayerFacade α) :
    s.release.observed = s.observed := by
  unfold DataLayerFacade.release
  cases hh : s.handed <;> rfl

@[simp] theorem DataLayerFacade.batch_size_release {α : Type} (s : DataLayerFacade α) :
    s.release.batch_size = s.batch_size := by
  unfold DataLayerFacade.release
  cases hh : s.handed <;> rfl

@[simp] theorem DataLayerFacade.active_release {α : Type} (s : DataLayerFacade α) :
    s.release.active = s.active := by
  unfold DataLayerFacade.release
  cases hh : s.handed <;> rfl

@[simp] theorem DataLayerFacade.source_release {α : Type} (s : DataLayerFacade α) :
    s.release.source = s.source := by
  unfold DataLayerFacade.release
  cases hh : s.handed <;> rfl

theorem DataLayerFacade.setup_inv {α : Type} (records : List α) (n : Nat) (shuffle : Bool)
    (seed : Nat) (s0 : DataLayerFacade α)
    (h : DataLayerFacade.setup records n shuffle seed = .ok s0) : s0.Inv := by
  unfold DataLayerFacade.setup at h
  split at h
  · cases h
  · cases h
    refine ⟨rfl, ?_, ?_, ?_, ?_, ?_, ?_, ?_⟩
    · intro o ho; cases ho
    · intro o ho; cases ho
    · intro slot; cases slot <;> simp [DataLayerFacade.spawn, DataLayerFacade.setBuffer]
    · intro slot hs; cases hs
    · intro w hw
      simp [DataLayerFacade.spawn] at hw
      subst hw
      simp [DataLayerFacade.spawn, DataLayerFacade.setBuffer]
    · intro slot; cases slot <;> simp [DataLayerFacade.spawn, DataLayerFacade.setBuffer]
    · simp [DataLayerFacade.PhaseInv, DataLayerFacade.spawn]

theorem DataLayerFacade.workers_of_getElem {α : Type} (s : DataLayerFacade α) (hinv : s.Inv)
    (i : Nat) (w : PrefetchWorker) (hw : s.workers[i]? = some w) :
    s.phase = .awaitingJoin ∧ s.workers = [w] ∧ i = 0 ∧ w.target = s.active ∧
      (s.buffers s.active).state = .filling := by
  have hp := hinv.phaseInv
  have hmem : w ∈ s.workers := List.getElem?_mem hw
  have hfill := hinv.leasedFilling w hmem
  unfold DataLayerFacade.PhaseInv at hp
  cases hph : s.phase <;> rw [hph] at hp <;> simp only at hp
  · obtain ⟨w1, h1, h2, _⟩ := hp
    rw [h1] at hw
    cases i with
    | zero =>
      simp at hw; subst hw
      exact ⟨rfl, h1, rfl, h2, h2 ▸ hfill⟩
    | succ j => simp at hw
  · rw [hp.1] at hw; simp at hw
  · rw [hp.1] at hw; simp at hw
  · rw [hp.1] at hw; simp at hw

theorem DataLayerFacade.step_workerRow_inv {α : Type} (g : ShuffleRng) (i : Nat)
    (s s1 : DataLayerFacade α) (hinv : s.Inv)
    (h : s.step g (Action.workerRow i) = some s1) : s1.Inv := by
  simp only [DataLayerFacade.step] at h
  split at h
  · cases h
  · rename_i w hw
    obtain ⟨hph, hws, _, htgt, hfill⟩ := DataLayerFacade.workers_of_getElem s hinv i w hw
    split at h
    · rename_i hcond
      obtain ⟨hrun, hlt⟩ := hcond
      split at h
      · cases h
      · cases h
        rw [htgt] at hlt
        refine ⟨hinv.noMisuse, hinv.outputsFull, hinv.observedFull, ?_, ?_, ?_, ?_, ?_⟩
        · intro slot hslot
          simp only [DataLayerFacade.setBuffer, htgt, Function.update_apply] at hslot ⊢
          by_cases hs : slot = s.active
          · subst hs; simp [hfill] at hslot
          · simp only [hs, if_false] at hslot ⊢
            exact hinv.readyFull slot hslot
        · intro slot hslot
          have := hinv.handedReady slot hslot
          simp only [DataLayerFacade.setBuffer, htgt, Function.update_apply]
          by_cases hs : slot = s.active
          · subst hs; rw [hfill] at this; cases this
          · simp only [hs, if_false]; exact this
        · intro w1 hw1
          have hw1' : w1 = w := by
            have : w1 ∈ s.workers := hw1
            rw [hws] at this; simpa using this
          subst hw1'
          simp only [DataLayerFacade.setBuffer, htgt, Function.update_apply, if_true]
          exact hfill
        · intro slot
          simp only [DataLayerFacade.setBuffer, htgt, Function.update_apply]
          by_cases hs : slot = s.active
          · subst hs
            simp only [if_true, List.length_append, List.length_singleton]
            exact hlt
          · simp only [hs, if_false]; exact hinv.rowsBounded slot
        · show DataLayerFacade.PhaseInv _
          unfold DataLayerFacade.PhaseInv
          simp only [DataLayerFacade.setBuffer, hph]
          refine ⟨w, hws, htgt, ?_⟩
          intro hd; rw [hrun] at hd; cases hd
    · cases h

theorem DataLayerFacade.step_workerFail_inv {α : Type} (g : ShuffleRng) (i : Nat)
    (s s1 : DataLayerFacade α) (hinv : s.Inv)
    (h : s.step g (Action.workerFail i) = some s1) : s1.Inv := by
  simp only [DataLayerFacade.step] at h
  split at h
  · cases h
  · rename_i w hw
    obtain ⟨hph, hws, hi, htgt, hfill⟩ := DataLayerFacade.workers_of_getElem s hinv i w hw
    split at h
    · cases h
      subst hi
      refine ⟨hinv.noMisuse, hinv.outputsFull, hinv.observedFull, hinv.readyFull,
        hinv.handedReady, ?_, hinv.rowsBounded, ?_⟩
      · intro w1 hw1
        simp only [hws, List.set_cons_zero, List.mem_singleton] at hw1
        subst hw1
        simp only [htgt]; exact hfill
      · show DataLayerFacade.PhaseInv _
        unfold DataLayerFacade.PhaseInv
        simp only [hph, hws, List.set_cons_zero]
        refine ⟨_, rfl, htgt, ?_⟩
        intro _ hf; cases hf
    · cases h

theorem DataLayerFacade.step_workerReturn_inv {α : Type} (g : ShuffleRng) (i : Nat)
    (s s1 : DataLayerFacade α) (hinv : s.Inv)
    (h : s.step g (Action.workerReturn i) = some s1) : s1.Inv := by
  simp only [DataLayerFacade.step] at h
  split at h
  · cases h
  · rename_i w hw
    obtain ⟨hph, hws, hi, htgt, hfill⟩ := DataLayerFacade.workers_of_getElem s hinv i w hw
    split at h
    · rename_i hcond
      cases h
      subst hi
      refine ⟨hinv.noMisuse, hinv.outputsFull, hinv.observedFull, hinv.readyFull,
        hinv.handedReady, ?_, hinv.rowsBounded, ?_⟩
      · intro w1 hw1
        simp only [hws, List.set_cons_zero, List.mem_singleton] at hw1
        subst hw1
        simp only [htgt]; exact hfill
      · show DataLayerFacade.PhaseInv _
        unfold DataLayerFacade.PhaseInv
        simp only [hph, hws, List.set_cons_zero]
        refine ⟨_, rfl, htgt, ?_⟩
        intro _ _
        have h1 := hcond.2
        rw [htgt] at h1
        exact Nat.le_antisymm (hinv.rowsBounded s.active) h1
    · cases h

theorem DataLayerFacade.step_join_inv {α : Type} (g : ShuffleRng)
    (s s1 : DataLayerFacade α) (hinv : s.Inv)
    (h : s.step g Action.join = some s1) : s1.Inv := by
  simp only [DataLayerFacade.step] at h
  split at h
  · rename_i hph
    have hp := hinv.phaseInv
    unfold DataLayerFacade.PhaseInv at hp
    rw [hph] at hp
    simp only at hp
    obtain ⟨w0, hws, htgt, hdone⟩ := hp
    rw [hws] at h
    simp only at h
    have hfill : (s.buffers s.active).state = .filling := by
      have := hinv.leasedFilling w0 (by rw [hws]; simp)
      rw [htgt] at this; exact this
    have hne : s.handed ≠ some s.active := by
      intro hh
      have := hinv.handedReady _ hh
      rw [hfill] at this; cases this
    split at h
    · rename_i hd
      split at h
      · cases h
        refine ⟨by simp [hinv.noMisuse], by simpa using hinv.outputsFull,
          by simpa using hinv.observedFull, ?_, ?_, ?_, ?_, ?_⟩
        · intro slot hslot
          simp only [DataLayerFacade.buffers_release, DataLayerFacade.batch_size_release]
            at hslot ⊢
          by_cases hh : s.handed = some slot
          · simp [hh] at hslot
          · simp only [hh, if_false] at hslot ⊢
            exact hinv.readyFull slot hslot
        · intro slot hslot
          simp at hslot
        · intro w hw; cases hw
        · intro slot
          simp only [DataLayerFacade.buffers_release, DataLayerFacade.batch_size_release]
          by_cases hh : s.handed = some slot
          · simp only [hh, if_true]; exact hinv.rowsBounded slot
          · simp only [hh, if_false]; exact hinv.rowsBounded slot
        · show DataLayerFacade.PhaseInv _
          unfold DataLayerFacade.PhaseInv
          simp
      · rename_i hnf
        cases h
        have hfull : (s.buffers s.active).rows.length = s.batch_size :=
          hdone hd (by simpa using hnf)
        refine ⟨by simp [DataLayerFacade.setBuffer, hinv.noMisuse],
          by simpa [DataLayerFacade.setBuffer] using hinv.outputsFull,
          by simpa [DataLayerFacade.setBuffer] using hinv.observedFull, ?_, ?_, ?_, ?_, ?_⟩
        · intro slot hslot
          simp only [DataLayerFacade.setBuffer, Function.update_apply, htgt,
            DataLayerFacade.buffers_release, DataLayerFacade.batch_size_release] at hslot ⊢
          by_cases hs : slot = s.active
          · subst hs
            simp only [if_true, hne, if_false]
            exact hfull
          · simp only [hs, if_false] at hslot ⊢
            by_cases hh : s.handed = some slot
            · simp [hh] at hslot
            · simp only [hh, if_false] at hslot ⊢
              exact hinv.readyFull slot hslot
        · intro slot hslot
          simp [DataLayerFacade.setBuffer] at hslot
        · intro w hw; cases hw
        · intro slot
          simp only [DataLayerFacade.setBuffer, Function.update_apply, htgt,
            DataLayerFacade.buffers_release, DataLayerFacade.batch_size_release]
          by_cases hs : slot = s.active
          · subst hs
            simp only [if_true, hne, if_false]
            exact hinv.rowsBounded _
          · simp only [hs, if_false]
            by_cases hh : s.handed = some slot
            · simp only [hh, if_true]; exact hinv.rowsBounded slot
            · simp only [hh, if_false]; exact hinv.rowsBounded slot
        · show DataLayerFacade.PhaseInv _
          unfold DataLayerFacade.PhaseInv
          simp [DataLayerFacade.setBuffer, htgt]
    · cases h
  · cases h

theorem DataLayerFacade.step_handOff_inv {α : Type} (g : ShuffleRng)
    (s s1 : DataLayerFacade α) (hinv : s.Inv)
    (h : s.step g Action.handOff = some s1) : s1.Inv := by
  simp only [DataLayerFacade.step] at h
  split at h
  · rename_i hph
    cases h
    have hp := hinv.phaseInv
    unfold DataLayerFacade.PhaseInv at hp
    rw [hph] at hp
    simp only at hp
    obtain ⟨hws, hready, _⟩ := hp
    refine ⟨hinv.noMisuse, ?_, hinv.observedFull, hinv.readyFull, ?_, hinv.leasedFilling,
      hinv.rowsBounded, ?_⟩
    · intro o ho
      rcases List.mem_append.1 ho with h1 | h1
      · exact hinv.outputsFull o h1
      · rw [List.mem_singleton] at h1
        rw [h1]; exact hinv.readyFull _ hready
    · intro slot hslot
      have : s.active = slot := Option.some.inj hslot
      rw [← this]; exact hready
    · show DataLayerFacade.PhaseInv _
      unfold DataLayerFacade.PhaseInv
      exact ⟨hws, rfl⟩
  · cases h

theorem DataLayerFacade.step_create_inv {α : Type} (g : ShuffleRng)
    (s s1 : DataLayerFacade α) (hinv : s.Inv)
    (h : s.step g Action.create = some s1) : s1.Inv := by
  simp only [DataLayerFacade.step] at h
  split at h
  · rename_i hph
    have hp := hinv.phaseInv
    unfold DataLayerFacade.PhaseInv at hp
    rw [hph] at hp
    simp only at hp
    obtain ⟨hws, hhanded⟩ := hp
    rw [hws] at h
    simp only [List.isEmpty_nil, if_true] at h
    cases h
    have hoth : s.active.other ≠ s.active := by cases s.active <;> decide
    have hact : s.active ≠ s.active.other := fun e => hoth e.symm
    refine ⟨hinv.noMisuse, hinv.outputsFull, hinv.observedFull, ?_, ?_, ?_, ?_, ?_⟩
    · intro slot hslot
      simp only [DataLayerFacade.spawn, DataLayerFacade.setBuffer, Function.update_apply]
        at hslot ⊢
      by_cases hs : slot = s.active.other
      · simp [hs] at hslot
      · simp only [hs, if_false] at hslot ⊢
        exact hinv.readyFull slot hslot
    · intro slot hslot
      have hslot1 : s.handed = some slot := hslot
      rw [hhanded] at hslot1
      have : s.active = slot := Option.some.inj hslot1
      subst this
      simp only [DataLayerFacade.spawn, DataLayerFacade.setBuffer, Function.update_apply, hact,
        if_false]
      exact hinv.handedReady _ hhanded
    · intro w hw
      simp only [DataLayerFacade.spawn, hws, List.mem_singleton] at hw
      subst hw
      simp [DataLayerFacade.spawn, DataLayerFacade.setBuffer]
    · intro slot
      simp only [DataLayerFacade.spawn, DataLayerFacade.setBuffer, Function.update_apply]
      by_cases hs : slot = s.active.other
      · simp [hs]
      · simp only [hs, if_false]; exact hinv.rowsBounded slot
    · show DataLayerFacade.PhaseInv _
      unfold DataLayerFacade.PhaseInv
      simp [DataLayerFacade.spawn, hws]
  · cases h

theorem DataLayerFacade.step_consumerRead_inv {α : Type} (g : ShuffleRng)
    (s s1 : DataLayerFacade α) (hinv : s.Inv)
    (h : s.step g Action.consumerRead = some s1) : s1.Inv := by
  simp only [DataLayerFacade.step] at h
  split at h
  · cases h
  · rename_i hd hhanded
    cases h
    refine ⟨hinv.noMisuse, hinv.outputsFull, ?_, hinv.readyFull, hinv.handedReady,
      hinv.leasedFilling, hinv.rowsBounded, ?_⟩
    · intro o ho
      rcases List.mem_append.1 ho with h1 | h1
      · exact hinv.observedFull o h1
      · rw [List.mem_singleton] at h1
        rw [h1]; exact hinv.readyFull _ (hinv.handedReady _ hhanded)
    · have hp := hinv.phaseInv
      show DataLayerFacade.PhaseInv _
      unfold DataLayerFacade.PhaseInv at hp ⊢
      exact hp

/-- Every atomic action of the worker or the consumer preserves the pipeline invariant. -/
theorem DataLayerFacade.step_inv {α : Type} (g : ShuffleRng) (a : Action)
    (s s1 : DataLayerFacade α) (hinv : s.Inv) (h : s.step g a = some s1) : s1.Inv := by
  cases a with
  | workerRow i => exact DataLayerFacade.step_workerRow_inv g i s s1 hinv h
  | workerFail i => exact DataLayerFacade.step_workerFail_inv g i s s1 hinv h
  | workerReturn i => exact DataLayerFacade.step_workerReturn_inv g i s s1 hinv h
  | join => exact DataLayerFacade.step_join_inv g s s1 hinv h
  | handOff => exact DataLayerFacade.step_handOff_inv g s s1 hinv h
  | create => exact DataLayerFacade.step_create_inv g s s1 hinv h
  | consumerRead => exact DataLayerFacade.step_consumerRead_inv g s s1 hinv h

/-- Every schedule preserves the pipeline invariant. -/
theorem DataLayerFacade.run_inv {α : Type} (g : ShuffleRng) (as : List Action) :
    ∀ (s s1 : DataLayerFacade α), s.Inv → s.run g as = some s1 → s1.Inv := by
  induction as with
  | nil =>
    intro s s1 hinv h
    simp only [DataLayerFacade.run] at h
    cases h; exact hinv
  | cons a rest ih =>
    intro s s1 hinv h
    simp only [DataLayerFacade.run] at h
    split at h
    · cases h
    · rename_i s2 hstep
      exact ih s2 s1 (DataLayerFacade.step_inv g a s s2 hinv hstep) h

theorem RowsFrom.nil {α : Type} (records : List α) (start : Nat) :
    RowsFrom records start ([] : List (Record α)) := by
  intro r hr; cases hr

theorem RowsFrom.snoc {α : Type} (records : List α) (start : Nat) (rows : List (Record α))
    (p : α) (h : RowsFrom records start rows)
    (hp : records[(start + rows.length) % records.length]? = some p) :
    RowsFrom records start
      (rows ++ [{ index := (start + rows.length) % records.length, payload := p }]) := by
  intro r hr
  rw [List.length_append, List.length_singleton] at hr
  by_cases hlt : r < rows.length
  · obtain ⟨q, hq1, hq2⟩ := h r hlt
    exact ⟨q, hq1, by rw [List.getElem?_append_left hlt]; exact hq2⟩
  · have hr' : r = rows.length := by omega
    subst hr'
    refine ⟨p, hp, ?_⟩
    rw [List.getElem?_append_right (Nat.le_refl _)]
    simp

/-- No atomic action changes the batch size. -/
theorem DataLayerFacade.step_batch_size {α : Type} (g : ShuffleRng) (a : Action)
    (s s1 : DataLayerFacade α) (h : s.step g a = some s1) : s1.batch_size = s.batch_size := by
  cases a <;> simp only [DataLayerFacade.step] at h
  all_goals
    repeat' split at h
    all_goals
      cases h <;> (first | rfl | simp [DataLayerFacade.setBuffer, DataLayerFacade.spawn])

theorem DataLayerFacade.run_batch_size {α : Type} (g : ShuffleRng) (as : List Action) :
    ∀ (s s1 : DataLayerFacade α), s.run g as = some s1 → s1.batch_size = s.batch_size := by
  induction as with
  | nil =>
    intro s s1 h
    simp only [DataLayerFacade.run] at h
    cases h; rfl
  | cons a rest ih =>
    intro s s1 h
    simp only [DataLayerFacade.run] at h
    split at h
    · cases h
    · rename_i s2 hstep
      rw [ih s2 s1 h, DataLayerFacade.step_batch_size g a s s2 hstep]

theorem DataLayerFacade.run_append {α : Type} (g : ShuffleRng) (as bs : List Action) :
    ∀ (s : DataLayerFacade α),
      s.run g (as ++ bs) = (s.run g as).bind (fun s1 => s1.run g bs) := by
  induction as with
  | nil => intro s; rfl
  | cons a rest ih =>
    intro s
    simp only [List.cons_append, DataLayerFacade.run]
    cases s.step g a with
    | none => rfl
    | some s2 => exact ih s2

theorem DataLayerFacade.setup_content {α : Type} (records : List α) (n seed : Nat)
    (s0 : DataLayerFacade α) (hne : records ≠ [])
    (h : DataLayerFacade.setup records n false seed = .ok s0) :
    s0.ContentInv records ∧ s0.batch_size = n := by
  obtain ⟨src, hsrc, hun⟩ := RecordSource.open_unshuffled records seed hne
  unfold DataLayerFacade.setup at h
  rw [hsrc] at h
  simp only at h
  cases h
  refine ⟨⟨?_, ?_⟩, rfl⟩
  · intro k hk; cases hk
  · simp only [DataLayerFacade.spawn, DataLayerFacade.setBuffer, Function.update_same,
      List.length_nil, Nat.zero_mul, Nat.add_zero, Nat.zero_mod]
    exact ⟨RowsFrom.nil records 0, hun⟩

theorem DataLayerFacade.step_content {α : Type} (g : ShuffleRng) (records : List α)
    (hne : records ≠ []) (a : Action) (s s1 : DataLayerFacade α) (hinv : s.Inv)
    (hc : s.ContentInv records) (h : s.step g a = some s1) : s1.ContentInv records := by
  have hT : 0 < records.length := List.length_pos.2 hne
  cases a with
  | workerRow i =>
    simp only [DataLayerFacade.step] at h
    split at h
    · cases h
    · rename_i w hw
      obtain ⟨hph, hws, _, htgt, hfill⟩ := DataLayerFacade.workers_of_getElem s hinv i w hw
      split at h
      · split at h
        · cases h
        · rename_i r src hnext
          cases h
          obtain ⟨hc1, hc2⟩ := hc
          rw [hph] at hc2
          simp only at hc2
          obtain ⟨hrows, hsrc⟩ := hc2
          obtain ⟨p, src1, hp, hnext1, hsrc1⟩ :=
            RecordSource.next_unshuffled g records _ s.source hsrc (Nat.mod_lt _ hT)
          rw [hnext] at hnext1
          have hr : r = { index := (s.outputs.length * s.batch_size +
              (s.buffers s.active).rows.length) % records.length, payload := p } := by
            have := Option.some.inj hnext1
            exact congrArg Prod.fst this
          have hs : src = src1 := by
            have := Option.some.inj hnext1
            exact congrArg Prod.snd this
          subst hs
          refine ⟨hc1, ?_⟩
          simp only [DataLayerFacade.setBuffer, hph, htgt, Function.update_same,
            List.length_append, List.length_singleton]
          refine ⟨?_, ?_⟩
          · rw [hr]
            exact RowsFrom.snoc records _ _ p hrows hp
          · rw [Nat.mod_add_mod] at hsrc1
            rw [← Nat.add_assoc]; exact hsrc1
      · cases h
  | workerFail i =>
    simp only [DataLayerFacade.step] at h
    split at h
    · cases h
    · split at h
      · cases h; exact hc
      · cases h
  | workerReturn i =>
    simp only [DataLayerFacade.step] at h
    split at h
    · cases h
    · split at h
      · cases h; exact hc
      · cases h
  | join =>
    simp only [DataLayerFacade.step] at h
    split at h
    · rename_i hph
      have hp := hinv.phaseInv
      unfold DataLayerFacade.PhaseInv at hp
      rw [hph] at hp
      simp only at hp
      obtain ⟨w0, hws, htgt, hdone⟩ := hp
      rw [hws] at h
      simp only at h
      have hfill : (s.buffers s.active).state = .filling := by
        have := hinv.leasedFilling w0 (by rw [hws]; simp)
        rw [htgt] at this; exact this
      have hnh : s.handed ≠ some s.active := by
        intro hh
        have := hinv.handedReady _ hh
        rw [hfill] at this; cases this
      obtain ⟨hc1, hc2⟩ := hc
      rw [hph] at hc2
      simp only at hc2
      split at h
      · split at h
        · cases h
          refine ⟨by simpa using hc1, ?_⟩
          simp
        · cases h
          refine ⟨by simpa [DataLayerFacade.setBuffer] using hc1, ?_⟩
          simp only [DataLayerFacade.setBuffer, htgt, Function.update_same,
            DataLayerFacade.buffers_release, DataLayerFacade.outputs_release,
            DataLayerFacade.batch_size_release, DataLayerFacade.active_release,
            DataLayerFacade.source_release, hnh, if_false]
          exact hc2
      · cases h
    · cases h
  | handOff =>
    simp only [DataLayerFacade.step] at h
    split at h
    · rename_i hph
      cases h
      have hp := hinv.phaseInv
      unfold DataLayerFacade.PhaseInv at hp
      rw [hph] at hp
      simp only at hp
      obtain ⟨_, hready, _⟩ := hp
      have hfull := hinv.readyFull _ hready
      obtain ⟨hc1, hc2⟩ := hc
      rw [hph] at hc2
      simp only at hc2
      obtain ⟨hrows, hsrc⟩ := hc2
      refine ⟨?_, ?_⟩
      · intro k hk
        simp only [List.length_append, List.length_singleton] at hk
        by_cases hlt : k < s.outputs.length
        · obtain ⟨o, ho1, ho2⟩ := hc1 k hlt
          exact ⟨o, by simp only [List.getElem?_append_left hlt]; exact ho1, ho2⟩
        · have hk' : k = s.outputs.length := by omega
          subst hk'
          refine ⟨(s.buffers s.active).rows, ?_, hrows⟩
          simp only [List.getElem?_append_right (Nat.le_refl _), Nat.sub_self,
            List.getElem?_cons_zero]
      · simp only [List.length_append, List.length_singleton]
        rw [hfull] at hsrc
        rw [Nat.add_mul, Nat.one_mul]; exact hsrc
    · cases h
  | create =>
    simp only [DataLayerFacade.step] at h
    split at h
    · rename_i hph
      have hp := hinv.phaseInv
      unfold DataLayerFacade.PhaseInv at hp
      rw [hph] at hp
      simp only at hp
      obtain ⟨hws, _⟩ := hp
      rw [hws] at h
      simp only [List.isEmpty_nil, if_true] at h
      cases h
      obtain ⟨hc1, hc2⟩ := hc
      rw [hph] at hc2
      simp only at hc2
      refine ⟨hc1, ?_⟩
      simp only [DataLayerFacade.spawn, DataLayerFacade.setBuffer, Function.update_same,
        List.length_nil, Nat.add_zero]
      exact ⟨RowsFrom.nil records _, hc2⟩
    · cases h
  | consumerRead =>
    simp only [DataLayerFacade.step] at h
    split at h
    · cases h
    · cases h; exact hc

/-- Every schedule preserves the content invariant over an unshuffled source. -/
theorem DataLayerFacade.run_content {α : Type} (g : ShuffleRng) (records : List α)
    (hne : records ≠ []) (as : List Action) :
    ∀ (s s1 : DataLayerFacade α), s.Inv → s.ContentInv records → s.run g as = some s1 →
      s1.ContentInv records := by
  induction as with
  | nil =>
    intro s s1 _ hc h
    simp only [DataLayerFacade.run] at h
    cases h; exact hc
  | cons a rest ih =>
    intro s s1 hinv hc h
    simp only [DataLayerFacade.run] at h
    split at h
    · cases h
    · rename_i s2 hstep
      exact ih s2 s1 (DataLayerFacade.step_inv g a s s2 hinv hstep)
        (DataLayerFacade.step_content g records hne a s s2 hinv hc hstep) h

theorem DataLayerFacade.setup_live {α : Type} (records : List α) (n : Nat) (shuffle : Bool)
    (seed : Nat) (s0 : DataLayerFacade α)
    (h : DataLayerFacade.setup records n shuffle seed = .ok s0) : s0.Live 0 := by
  unfold DataLayerFacade.setup at h
  split at h
  · cases h
  · cases h
    refine ⟨rfl, rfl, ?_⟩
    simp [DataLayerFacade.spawn, DataLayerFacade.setBuffer]

/-- While rows are missing, the running worker can write the next one. -/
theorem DataLayerFacade.live_workerRow {α : Type} (g : ShuffleRng) (records : List α)
    (hne : records ≠ []) (s : DataLayerFacade α) (j : Nat) (hc : s.ContentInv records)
    (hl : s.Live j) (hj : j < s.batch_size) :
    ∃ s1, s.step g (Action.workerRow 0) = some s1 ∧ s1.Live (j + 1) ∧
      s1.outputs = s.outputs := by
  have hT : 0 < records.length := List.length_pos.2 hne
  obtain ⟨hph, hws, hlen⟩ := hl
  obtain ⟨_, hc2⟩ := hc
  rw [hph] at hc2
  simp only at hc2
  obtain ⟨p, src1, _, hnext, _⟩ :=
    RecordSource.next_unshuffled g records _ s.source hc2.2 (Nat.mod_lt _ hT)
  have hcond : (s.buffers s.active).rows.length < s.batch_size := by rw [hlen]; exact hj
  simp only [DataLayerFacade.step, hws, List.getElem?_cons_zero, true_and, hcond, if_true,
    hnext]
  refine ⟨_, rfl, ⟨hph, hws, ?_⟩, rfl⟩
  simp [DataLayerFacade.setBuffer, hlen]

/-- The running worker can write all the rows that are missing. -/
theorem DataLayerFacade.live_rows {α : Type} (g : ShuffleRng) (records : List α)
    (hne : records ≠ []) (m : Nat) :
    ∀ (s : DataLayerFacade α) (j : Nat), s.Inv → s.ContentInv records → s.Live j →
      j + m = s.batch_size →
      ∃ s1, s.run g (List.replicate m (Action.workerRow 0)) = some s1 ∧
        s1.Live s.batch_size ∧ s1.outputs = s.outputs := by
  induction m with
  | zero =>
    intro s j _ _ hl hj
    refine ⟨s, rfl, ?_, rfl⟩
    rw [← hj]; exact hl
  | succ m ih =>
    intro s j hinv hc hl hj
    obtain ⟨s1, hstep, hl1, hout1⟩ :=
      DataLayerFacade.live_workerRow g records hne s j hc hl (by omega)
    have hb := DataLayerFacade.step_batch_size g _ s s1 hstep
    obtain ⟨s2, hrun, hl2, hout2⟩ := ih s1 (j + 1)
      (DataLayerFacade.step_inv g _ s s1 hinv hstep)
      (DataLayerFacade.step_content g records hne _ s s1 hinv hc hstep) hl1
      (by rw [hb]; omega)
    refine ⟨s2, ?_, ?_, ?_⟩
    · simp only [List.replicate_succ, DataLayerFacade.run, hstep]
      exact hrun
    · rw [← hb]; exact hl2
    · rw [hout2, hout1]

/-- Once the rows are written, the worker returns and `produce_batch()` goes through: the
batch is handed over and the next worker is running on the other buffer. -/
theorem DataLayerFacade.live_produce {α : Type} (g : ShuffleRng) (s : DataLayerFacade α)
    (hl : s.Live s.batch_size) :
    ∃ s1 s2, s.run g [Action.workerReturn 0] = some s1 ∧ s1.produce_batch g = some s2 ∧
      s2.Live 0 ∧ s2.outputs.length = s.outputs.length + 1 := by
  obtain ⟨hph, hws, hlen⟩ := hl
  have hfull : s.batch_size ≤ (s.buffers s.active).rows.length := by rw [hlen]
  obtain ⟨s1, h1, p1, w1, o1⟩ : ∃ s1, s.step g (Action.workerReturn 0) = some s1 ∧
      s1.phase = .awaitingJoin ∧
      s1.workers = [{ target := s.active, state := .Done, failed := false }] ∧
      s1.outputs = s.outputs := by
    simp only [DataLayerFacade.step, hws, List.getElem?_cons_zero, true_and, hfull, if_true]
    exact ⟨_, rfl, hph, rfl, rfl⟩
  obtain ⟨s2, h2, p2, w2, o2⟩ : ∃ s2, s1.step g Action.join = some s2 ∧
      s2.phase = .joined ∧ s2.workers = [] ∧ s2.outputs = s1.outputs := by
    simp only [DataLayerFacade.step, p1, w1, if_true, Bool.false_eq_true, if_false]
    exact ⟨_, rfl, rfl, rfl, by simp [DataLayerFacade.setBuffer]⟩
  obtain ⟨s3, h3, p3, w3, o3⟩ : ∃ s3, s2.step g Action.handOff = some s3 ∧
      s3.phase = .handedOff ∧ s3.workers = [] ∧
      s3.outputs.length = s2.outputs.length + 1 := by
    simp only [DataLayerFacade.step, p2, if_true]
    exact ⟨_, rfl, rfl, w2, by simp⟩
  obtain ⟨s4, h4, l4, o4⟩ : ∃ s4, s3.step g Action.create = some s4 ∧ s4.Live 0 ∧
      s4.outputs = s3.outputs := by
    simp only [DataLayerFacade.step, p3, w3, if_true, List.isEmpty_nil]
    refine ⟨_, rfl, ⟨rfl, ?_, ?_⟩, rfl⟩
    · simp [DataLayerFacade.spawn, w3]
    · simp [DataLayerFacade.spawn, DataLayerFacade.setBuffer]
  refine ⟨s1, s4, ?_, ?_, l4, ?_⟩
  · simp only [DataLayerFacade.run, h1]
  · simp only [DataLayerFacade.produce_batch, DataLayerFacade.run, h2, h3, h4]
  · rw [o4, o3, o2, o1]

/-- Each step of the pipeline goes through, and `k` steps hand over `k` batches. -/
theorem DataLayerFacade.steps_live {α : Type} (g : ShuffleRng) (records : List α)
    (hne : records ≠ []) (k : Nat) :
    ∀ (s : DataLayerFacade α), s.Inv → s.ContentInv records → s.Live 0 →
      ∃ s1 as, s.steps g k = some s1 ∧ s.run g as = some s1 ∧
        s1.outputs.length = s.outputs.length + k := by
  induction k with
  | zero =>
    intro s _ _ _
    exact ⟨s, [], rfl, rfl, rfl⟩
  | succ k ih =>
    intro s hinv hc hl
    obtain ⟨s1, hrun1, hl1, hout1⟩ :=
      DataLayerFacade.live_rows g records hne s.batch_size s 0 hinv hc hl (by omega)
    have hb1 := DataLayerFacade.run_batch_size g _ s s1 hrun1
    rw [← hb1] at hl1
    obtain ⟨s2, s3, hrun2, hprod, hl3, hout3⟩ := DataLayerFacade.live_produce g s1 hl1
    have hfill : s.fill g = some s2 := by
      simp only [DataLayerFacade.fill, DataLayerFacade.run_append, hrun1, Option.bind]
      exact hrun2
    have hrun3 : s.run g (List.replicate s.batch_size (Action.workerRow 0) ++
        [Action.workerReturn 0] ++ [Action.join, Action.handOff, Action.create]) = some s3 := by
      rw [DataLayerFacade.run_append]
      have : s.run g (List.replicate s.batch_size (Action.workerRow 0) ++
          [Action.workerReturn 0]) = some s2 := hfill
      rw [this]
      exact hprod
    obtain ⟨s4, as, hsteps, hrun4, hout4⟩ := ih s3
      (DataLayerFacade.run_inv g _ s s3 hinv hrun3)
      (DataLayerFacade.run_content g records hne _ s s3 hinv hc hrun3) hl3
    refine ⟨s4, (List.replicate s.batch_size (Action.workerRow 0) ++
        [Action.workerReturn 0] ++ [Action.join, Action.handOff, Action.create]) ++ as,
      ?_, ?_, ?_⟩
    · simp only [DataLayerFacade.steps, hfill, hprod]
      exact hsteps
    · rw [DataLayerFacade.run_append, hrun3]
      exact hrun4
    · rw [hout4, hout3, hout1]; omega

theorem Option.eq_some_getD {β : Type} (o : Option β) (d : β) (h : o.isSome = true) :
    o = some (o.getD d) := by
  cases o with
  | none => cases h
  | some b => rfl

/-! ### C1 -/

/-- C1: with shuffle disabled and a non-empty source of `T` records, for every batch size `n`
the pipeline goes through every step, and row `r < n` of the batch produced at step `k`
(counted from 0) holds record number `(k * n + r) mod T`: its index and the payload stored
there. This holds for the schedule in which each fill runs to completion before
`produce_batch()`, and for the batches handed over under every other schedule of the worker
and the consumer. For batch size 4 over `[A, B, C, D, E]` the first three steps yield
`[A, B, C, D]`, `[E, A, B, C]`, `[D, E, A, B]`. -/
theorem batch_rows_wrap {α : Type} (g : ShuffleRng) (records : List α) (n seed : Nat)
    (hne : records ≠ []) :
    (∃ s0, DataLayerFacade.setup records n false seed = .ok s0 ∧
      (∀ k, ∃ s batch, s0.steps g (k + 1) = some s ∧ s.outputs.length = k + 1 ∧
        s.outputs[k]? = some batch ∧ batch.length = n ∧
        ∀ r, r < n → ∃ p, records[(k * n + r) % records.length]? = some p ∧
          batch[r]? = some { index := (k * n + r) % records.length, payload := p }) ∧
      (∀ as s, s0.run g as = some s → ∀ k, k < s.outputs.length →
        ∃ batch, s.outputs[k]? = some batch ∧ batch.length = n ∧
          ∀ r, r < n → ∃ p, records[(k * n + r) % records.length]? = some p ∧
            batch[r]? = some { index := (k * n + r) % records.length, payload := p })) ∧
    (((DataLayerFacade.setup ['A', 'B', 'C', 'D', 'E'] 4 false 0).toOption.bind
        (fun s0 => s0.steps ShuffleRng.trivial 3)).map
          (fun s => s.outputs.map (fun o => o.map Record.payload)) =
      some [['A', 'B', 'C', 'D'], ['E', 'A', 'B', 'C'], ['D', 'E', 'A', 'B']]) := by
  refine ⟨?_, by decide!⟩
  obtain ⟨src, hsrc, _⟩ := RecordSource.open_unshuffled records seed hne
  have hs0 : ∃ s0, DataLayerFacade.setup records n false seed = .ok s0 := by
    simp only [DataLayerFacade.setup, hsrc]
    exact ⟨_, rfl⟩
  obtain ⟨s0, hsetup⟩ := hs0
  have hinv := DataLayerFacade.setup_inv records n false seed s0 hsetup
  obtain ⟨hcont, hbs⟩ := DataLayerFacade.setup_content records n seed s0 hne hsetup
  have hlive := DataLayerFacade.setup_live records n false seed s0 hsetup
  have hout0 : s0.outputs = [] := by
    unfold DataLayerFacade.setup at hsetup
    rw [hsrc] at hsetup
    simp only at hsetup
    cases hsetup; rfl
  have general : ∀ as s, s0.run g as = some s → ∀ k, k < s.outputs.length →
      ∃ batch, s.outputs[k]? = some batch ∧ batch.length = n ∧
        ∀ r, r < n → ∃ p, records[(k * n + r) % records.length]? = some p ∧
          batch[r]? = some { index := (k * n + r) % records.length, payload := p } := by
    intro as s hrun k hk
    have hinv1 := DataLayerFacade.run_inv g as s0 s hinv hrun
    have hcont1 := DataLayerFacade.run_content g records hne as s0 s hinv hcont hrun
    have hbs1 : s.batch_size = n := by
      rw [DataLayerFacade.run_batch_size g as s0 s hrun, hbs]
    obtain ⟨batch, hb1, hb2⟩ := hcont1.1 k hk
    have hlen : batch.length = n := by
      rw [← hbs1]
      exact hinv1.outputsFull batch (List.getElem?_mem hb1)
    refine ⟨batch, hb1, hlen, ?_⟩
    intro r hr
    rw [hbs1] at hb2
    exact hb2 r (by rw [hlen]; exact hr)
  refine ⟨s0, hsetup, ?_, general⟩
  intro k
  obtain ⟨s, as, hsteps, hrun, hlen⟩ :=
    DataLayerFacade.steps_live g records hne (k + 1) s0 hinv hcont hlive
  have hlen1 : s.outputs.length = k + 1 := by
    rw [hlen, hout0]; simp
  obtain ⟨batch, h1, h2, h3⟩ := general as s hrun k (by omega)
  exact ⟨s, batch, hsteps, hlen1, h1, h2, h3⟩

/-- C1, instantiated at the scenario of the specification: batch size 4 over the records
`[A, B, C, D, E]`. -/
theorem batch_rows_wrap_witness :
    ['A', 'B', 'C', 'D', 'E'] ≠ [] ∧
    ∃ s0, DataLayerFacade.setup ['A', 'B', 'C', 'D', 'E'] 4 false 0 = .ok s0 ∧
      (∀ k, ∃ s batch, s0.steps ShuffleRng.trivial (k + 1) = some s ∧
        s.outputs.length = k + 1 ∧ s.outputs[k]? = some batch ∧ batch.length = 4 ∧
        ∀ r, r < 4 → ∃ p, ['A', 'B', 'C', 'D', 'E'][(k * 4 + r) % 5]? = some p ∧
          batch[r]? = some { index := (k * 4 + r) % 5, payload := p }) ∧
      (∀ as s, s0.run ShuffleRng.trivial as = some s → ∀ k, k < s.outputs.length →
        ∃ batch, s.outputs[k]? = some batch ∧ batch.length = 4 ∧
          ∀ r, r < 4 → ∃ p, ['A', 'B', 'C', 'D', 'E'][(k * 4 + r) % 5]? = some p ∧
            batch[r]? = some { index := (k * 4 + r) % 5, payload := p }) :=
  ⟨by decide,
    (batch_rows_wrap ShuffleRng.trivial ['A', 'B', 'C', 'D', 'E'] 4 0 (by decide)).1⟩

/-! ### C3 -/

/-- C3: in every state reached from `setup()` by any schedule of atomic actions of the worker
and the consumer (in particular by any number of `produce_batch()` calls, each being join,
hand-off, create), at most one prefetch worker exists and at most one is `Running`; no
precondition of `create()` has been violated, and whenever `create()` is invoked no worker is
left that has not been joined; and no buffer is at once ready (in the ready state or held by
the consumer) and filling (in the filling state or leased to a worker). -/
theorem single_worker_invariant {α : Type} (g : ShuffleRng) (records : List α) (n : Nat)
    (shuffle : Bool) (seed : Nat) (s0 : DataLayerFacade α)
    (hsetup : DataLayerFacade.setup records n shuffle seed = .ok s0)
    (as : List Action) (s : DataLayerFacade α) (hrun : s0.run g as = some s) :
    s.runningCount ≤ 1 ∧ s.workers.length ≤ 1 ∧ s.misuse = false ∧
    (∀ s1, s.step g Action.create = some s1 → s.workers = [] ∧ s1.misuse = false) ∧
    (∀ slot, ¬ (s.isFilling slot = true ∧ s.isReady slot = true)) := by
  have hinv0 := DataLayerFacade.setup_inv records n shuffle seed s0 hsetup
  have hinv := DataLayerFacade.run_inv g as s0 s hinv0 hrun
  have hlen : s.workers.length ≤ 1 := by
    have hp := hinv.phaseInv
    unfold DataLayerFacade.PhaseInv at hp
    cases hph : s.phase <;> rw [hph] at hp <;> simp only at hp
    · obtain ⟨w, hw, _⟩ := hp
      rw [hw]; simp
    · rw [hp.1]; simp
    · rw [hp.1]; simp
    · rw [hp.1]; simp
  refine ⟨?_, hlen, hinv.noMisuse, ?_, ?_⟩
  · exact Nat.le_trans (List.length_filter_le _ _) hlen
  · intro s1 hstep
    have hinv1 := DataLayerFacade.step_inv g _ s s1 hinv hstep
    refine ⟨?_, hinv1.noMisuse⟩
    simp only [DataLayerFacade.step] at hstep
    split at hstep
    · rename_i hph
      have hp := hinv.phaseInv
      unfold DataLayerFacade.PhaseInv at hp
      rw [hph] at hp
      exact hp.1
    · cases hstep
  · intro slot hboth
    obtain ⟨hf, hr⟩ := hboth
    have hready : (s.buffers slot).state = .ready := by
      simp only [DataLayerFacade.isReady, Bool.or_eq_true, decide_eq_true_eq] at hr
      rcases hr with hr | hr
      · exact hr
      · exact hinv.handedReady slot hr
    have hfilling : (s.buffers slot).state = .filling := by
      simp only [DataLayerFacade.isFilling, Bool.or_eq_true, decide_eq_true_eq,
        List.any_eq_true] at hf
      rcases hf with hf | ⟨w, hw, hf⟩
      · exact hf
      · rw [← hf]; exact hinv.leasedFilling w hw
    rw [hready] at hfilling
    cases hfilling

/-- C3, instantiated at the state after `exampleSchedule`: the second worker is running while
the consumer holds the first batch. -/
theorem single_worker_invariant_witness :
    DataLayerFacade.setup ['A', 'B', 'C', 'D', 'E'] 4 false 0 =
      .ok DataLayerFacade.exampleStart ∧
    DataLayerFacade.exampleStart.run ShuffleRng.trivial DataLayerFacade.exampleSchedule =
      some DataLayerFacade.exampleAfter ∧
    DataLayerFacade.exampleAfter.runningCount = 1 ∧
    DataLayerFacade.exampleAfter.isReady Slot.A = true ∧
    DataLayerFacade.exampleAfter.isFilling Slot.B = true ∧
    (∀ slot, ¬ (DataLayerFacade.exampleAfter.isFilling slot = true ∧
      DataLayerFacade.exampleAfter.isReady slot = true)) :=
  ⟨rfl, Option.eq_some_getD _ _ (by decide!), by decide!, by decide!, by decide!,
    (single_worker_invariant ShuffleRng.trivial ['A', 'B', 'C', 'D', 'E'] 4 false 0
      DataLayerFacade.exampleStart rfl DataLayerFacade.exampleSchedule
      DataLayerFacade.exampleAfter (Option.eq_some_getD _ _ (by decide!))).2.2.2.2⟩

/-! ### C5 -/

/-- C5: whatever the schedule of the atomic actions of the background worker and of the
consumer after `setup()`, the buffer the consumer sees after `join()` is ready and has exactly
`batch_size` rows; so has the buffer the consumer holds, every batch handed over and every
batch the consumer has read; and a buffer with fewer rows than `batch_size` is never ready nor
held by the consumer. -/
theorem no_torn_reads {α : Type} (g : ShuffleRng) (records : List α) (n : Nat)
    (shuffle : Bool) (seed : Nat) (s0 : DataLayerFacade α)
    (hsetup : DataLayerFacade.setup records n shuffle seed = .ok s0)
    (as : List Action) (s : DataLayerFacade α) (hrun : s0.run g as = some s) :
    s.batch_size = n ∧
    (s.phase = .joined →
      (s.buffers s.active).state = .ready ∧ (s.buffers s.active).rows.length = n) ∧
    (∀ slot, s.handed = some slot → (s.buffers slot).rows.length = n) ∧
    (∀ o ∈ s.outputs, o.length = n) ∧
    (∀ o ∈ s.observed, o.length = n) ∧
    (∀ slot, (s.buffers slot).rows.length < n → s.isReady slot = false) := by
  have hinv0 := DataLayerFacade.setup_inv records n shuffle seed s0 hsetup
  have hinv := DataLayerFacade.run_inv g as s0 s hinv0 hrun
  have hbs0 : s0.batch_size = n := by
    unfold DataLayerFacade.setup at hsetup
    split at hsetup
    · cases hsetup
    · cases hsetup; rfl
  have hbs : s.batch_size = n := by
    rw [DataLayerFacade.run_batch_size g as s0 s hrun, hbs0]
  refine ⟨hbs, ?_, ?_, ?_, ?_, ?_⟩
  · intro hph
    have hp := hinv.phaseInv
    unfold DataLayerFacade.PhaseInv at hp
    rw [hph] at hp
    exact ⟨hp.2.1, hbs ▸ hinv.readyFull _ hp.2.1⟩
  · intro slot hslot
    exact hbs ▸ hinv.readyFull slot (hinv.handedReady slot hslot)
  · intro o ho; exact hbs ▸ hinv.outputsFull o ho
  · intro o ho; exact hbs ▸ hinv.observedFull o ho
  · intro slot hlt
    cases hr : s.isReady slot with
    | false => rfl
    | true =>
      exfalso
      have hready : (s.buffers slot).state = .ready := by
        simp only [DataLayerFacade.isReady, Bool.or_eq_true, decide_eq_true_eq] at hr
        rcases hr with hr | hr
        · exact hr
        · exact hinv.handedReady slot hr
      have := hinv.readyFull slot hready
      omega

/-- C5, instantiated at the state after `exampleSchedule`: the consumer has read the batch it
holds twice, the second time between two rows of the next worker. -/
theorem no_torn_reads_witness :
    DataLayerFacade.setup ['A', 'B', 'C', 'D', 'E'] 4 false 0 =
      .ok DataLayerFacade.exampleStart ∧
    DataLayerFacade.exampleStart.run ShuffleRng.trivial DataLayerFacade.exampleSchedule =
      some DataLayerFacade.exampleAfter ∧
    DataLayerFacade.exampleAfter.observed.length = 2 ∧
    (DataLayerFacade.exampleAfter.buffers Slot.B).rows.length = 2 ∧
    (∀ o ∈ DataLayerFacade.exampleAfter.observed, o.length = 4) :=
  ⟨rfl, Option.eq_some_getD _ _ (by decide!), by decide!, by decide!,
    (no_torn_reads ShuffleRng.trivial ['A', 'B', 'C', 'D', 'E'] 4 false 0
      DataLayerFacade.exampleStart rfl DataLayerFacade.exampleSchedule
      DataLayerFacade.exampleAfter (Option.eq_some_getD _ _ (by decide!))).2.2.2.2.1⟩

/-! ## Further theorems about the class declarations -/

/-! ### C11 -/

/-- C11: every concrete layer variant that derives from `BasePrefetchingDataLayer` holds as
many prefetch output buffers (`prefetch_data_` and `prefetch_label_` of the prefetching base,
plus `prefetch_data_dim_` or `prefetch_ctrl_data_` of its intermediate base) as the largest
output count it admits (`ExactNumTopBlobs()`, or `MaxTopBlobs()` for `DataLayer`): 2 for
`DataLayer`, `ImageDataLayer` and `WindowDataLayer`, 3 for each of the seven segmentation
variants. -/
theorem prefetch_buffers_match_tops (c : LayerClass) (hc : isConcrete c = true)
    (hd : Derives c LayerClass.BasePrefetchingDataLayer) :
    largestTopCount c = some ((prefetchBuffers c).length : Int) ∧
    admitsTopCount c (prefetchBuffers c).length = true ∧
    (∀ n : Nat, admitsTopCount c n = true → n ≤ (prefetchBuffers c).length) ∧
    (c ∈ [LayerClass.DataLayer, LayerClass.ImageDataLayer, LayerClass.WindowDataLayer] →
      prefetchBuffers c = [DataMember.prefetch_data_, DataMember.prefetch_label_] ∧
      (prefetchBuffers c).length = 2) ∧
    (c ∈ segmentationLayers →
      (prefetchBuffers c =
          [DataMember.prefetch_data_, DataMember.prefetch_label_,
            DataMember.prefetch_data_dim_] ∨
        prefetchBuffers c =
          [DataMember.prefetch_data_, DataMember.prefetch_label_,
            DataMember.prefetch_ctrl_data_]) ∧
      (prefetchBuffers c).length = 3) ∧
    (c ∈ [LayerClass.DataLayer, LayerClass.ImageDataLayer, LayerClass.WindowDataLayer] ∨
      c ∈ segmentationLayers) := by
  rw [← derivesFrom_iff] at hd
  refine ⟨?_, ?_, ?_, ?_, ?_, ?_⟩
  · revert hc hd; cases c <;> decide
  · revert hc hd; cases c <;> decide
  · intro n
    have hdecl :
        (ExactNumTopBlobs c = some ((prefetchBuffers c).length : Int) ∧
          MinTopBlobs c = none ∧ MaxTopBlobs c = none) ∨
        (ExactNumTopBlobs c = none ∧ MinTopBlobs c = some 1 ∧
          MaxTopBlobs c = some ((prefetchBuffers c).length : Int)) := by
      revert hc hd; cases c <;> decide
    rcases hdecl with ⟨h1, h2, h3⟩ | ⟨h1, h2, h3⟩
    · simp only [admitsTopCount, h1, h2, h3, Bool.and_true, decide_eq_true_eq]
      omega
    · simp only [admitsTopCount, h1, h2, h3, Bool.true_and, Bool.and_eq_true,
        decide_eq_true_eq]
      omega
  · revert hc hd; cases c <;> decide
  · revert hc hd; cases c <;> decide
  · revert hc hd; cases c <;> decide

/-- C11, instantiated at `SegBinaryCtrlLayer`. -/
theorem prefetch_buffers_match_tops_witness :
    isConcrete LayerClass.SegBinaryCtrlLayer = true ∧
    Derives LayerClass.SegBinaryCtrlLayer LayerClass.BasePrefetchingDataLayer ∧
    prefetchBuffers LayerClass.SegBinaryCtrlLayer =
      [DataMember.prefetch_data_, DataMember.prefetch_label_,
        DataMember.prefetch_ctrl_data_] ∧
    largestTopCount LayerClass.SegBinaryCtrlLayer =
      some ((prefetchBuffers LayerClass.SegBinaryCtrlLayer).length : Int) :=
  ⟨by decide, (derivesFrom_iff _ _).1 (by decide), by decide,
    (prefetch_buffers_match_tops LayerClass.SegBinaryCtrlLayer (by decide)
      ((derivesFrom_iff _ _).1 (by decide))).1⟩

/-! ### C12 -/

/-- C12: `type()` does not identify the concrete layer class. It returns `IMAGE_DATA` for
`ImageDataLayer` and for each of the seven segmentation variants, and the pairwise distinct
tags `DATA`, `DUMMY_DATA`, `HDF5_DATA`, `HDF5_OUTPUT`, `MEMORY_DATA` and `WINDOW_DATA` for the
remaining six concrete layers; two different concrete layers have the same tag exactly when
both are in the `IMAGE_DATA` group. -/
theorem type_tag_groups (c d : LayerClass) (hc : isConcrete c = true)
    (hd : isConcrete d = true) :
    imageDataGroup.length = 8 ∧
    (type c = some LayerType.IMAGE_DATA ↔ c ∈ imageDataGroup) ∧
    type LayerClass.DataLayer = some LayerType.DATA ∧
    type LayerClass.DummyDataLayer = some LayerType.DUMMY_DATA ∧
    type LayerClass.HDF5DataLayer = some LayerType.HDF5_DATA ∧
    type LayerClass.HDF5OutputLayer = some LayerType.HDF5_OUTPUT ∧
    type LayerClass.MemoryDataLayer = some LayerType.MEMORY_DATA ∧
    type LayerClass.WindowDataLayer = some LayerType.WINDOW_DATA ∧
    [LayerType.DATA, LayerType.DUMMY_DATA, LayerType.HDF5_DATA, LayerType.HDF5_OUTPUT,
      LayerType.MEMORY_DATA, LayerType.WINDOW_DATA, LayerType.IMAGE_DATA].Nodup ∧
    (c ≠ d → (type c = type d ↔ c ∈ imageDataGroup ∧ d ∈ imageDataGroup)) ∧
    (type LayerClass.ImageDataLayer = type LayerClass.ImageSegDataLayer ∧
      LayerClass.ImageDataLayer ≠ LayerClass.ImageSegDataLayer) := by
  refine ⟨by decide, ?_, by decide, by decide, by decide, by decide, by decide, by decide,
    by decide, ?_, by decide⟩
  · revert hc; cases c <;> decide
  · revert hc hd; cases c <;> cases d <;> decide

/-- C12, instantiated at `WindowSegDataLayer` and `WindowClsDataLayer`. -/
theorem type_tag_groups_witness :
    isConcrete LayerClass.WindowSegDataLayer = true ∧
    isConcrete LayerClass.WindowClsDataLayer = true ∧
    LayerClass.WindowSegDataLayer ≠ LayerClass.WindowClsDataLayer ∧
    (type LayerClass.WindowSegDataLayer = type LayerClass.WindowClsDataLayer ↔
      LayerClass.WindowSegDataLayer ∈ imageDataGroup ∧
        LayerClass.WindowClsDataLayer ∈ imageDataGroup) :=
  ⟨by decide, by decide, by decide,
    (type_tag_groups LayerClass.WindowSegDataLayer LayerClass.WindowClsDataLayer (by decide)
      (by decide)).2.2.2.2.2.2.2.2.2.1 (by decide)⟩

end Caffe
